import Mathlib

/-!
Verification of the programming-by-demonstration backend (`code/backend/`).

The Python source is shallowly embedded: each Python module becomes a group of
Lean definitions with matching names.  Python's in-place mutation is rendered
as explicit state passing (`EStateM`-style functions whose error outcome also
carries the state at the raise point, mirroring the partially mutated object a
Python exception leaves behind).  Python exceptions become an explicit error
sum `Err` of the exception classes the backend distinguishes.  Unbounded
recursion (`unify`, function interpretation) takes a fuel parameter; running
out of fuel is a separate outcome and never asserts anything about the code.
-/

namespace Algot

/-! ## unify.py: type terms -/

/-- Type terms from `unify.py`: `Var | Num | Bool | List | App`.
`app a b` encodes the arrow `a -> b`. -/
inductive Term where
  | var (name : String)
  | num
  | bool
  | list (a : Term)
  | app (a b : Term)
  deriving DecidableEq, Repr

/-- `Equation` from `unify.py`: an ordered pair of terms. -/
abbrev Equation := Term × Term

/-- `isinstance(t, get_args(Fun))`: every term that is not a `Var` belongs to
the `Fun` union `Num | Bool | List | App`. -/
def Term.isFun : Term → Bool
  | .var _ => false
  | _ => true

/-- `free_variables` from `unify.py`.  Python returns a `set` of `Var` nodes;
a `Var` is determined by its name, so the set is modelled as a `Finset` of
names. -/
def freeVariables : Term → Finset String
  | .var x => {x}
  | .num => ∅
  | .bool => ∅
  | .list a => freeVariables a
  | .app a b => freeVariables a ∪ freeVariables b

/-- `free_variables_equations` from `unify.py`. -/
def freeVariablesEquations (equations : List Equation) : Finset String :=
  equations.foldl (fun acc eq => acc ∪ (freeVariables eq.1 ∪ freeVariables eq.2)) ∅

/-- `x in free_variables(t)` where `x` is an arbitrary term: only a `Var` can
be a member of the free-variable set. -/
def occursIn (x : Term) (t : Term) : Prop :=
  match x with
  | .var n => n ∈ freeVariables t
  | _ => False

instance (x t : Term) : Decidable (occursIn x t) := by
  unfold occursIn; cases x <;> infer_instance

/-- `x in free_variables_equations(eqs)` for an arbitrary term `x`. -/
def occursInEquations (x : Term) (eqs : List Equation) : Prop :=
  match x with
  | .var n => n ∈ freeVariablesEquations eqs
  | _ => False

instance (x : Term) (eqs : List Equation) : Decidable (occursInEquations x eqs) := by
  unfold occursInEquations; cases x <;> infer_instance

/-- `substitute_term` from `unify.py`: replace occurrences of the variable
term `x` by `rt` in `t`.  Python compares `x == t` on `Var` nodes; if `x` is
not a `Var` the comparison never succeeds and the function is the identity. -/
def substituteTerm (x rt : Term) : Term → Term
  | .var y => if x = .var y then rt else .var y
  | .num => .num
  | .bool => .bool
  | .list a => .list (substituteTerm x rt a)
  | .app a b => .app (substituteTerm x rt a) (substituteTerm x rt b)

/-- `substitute_equation` from `unify.py`. -/
def substituteEquation (x rt : Term) (eq : Equation) : Equation :=
  (substituteTerm x rt eq.1, substituteTerm x rt eq.2)

/-- `substitute_list` from `unify.py`. -/
def substituteList (x rt : Term) (c : List Equation) : List Equation :=
  c.map (substituteEquation x rt)

/-- `alpha_conversion` from `unify.py`.  Python iterates over the set
`free_variables(x)` in an order the docstring leaves unspecified; the order is
made explicit as the argument `order`, a duplicate-free enumeration of that
set.  A negative `offset` raises `ValueError` (`Except.error`). -/
def alphaConversion (x : Term) (name : String) (offset : Int)
    (order : List String) : Except Unit (Term × Int) :=
  if ¬ offset ≥ 0 then .error ()
  else .ok (order.foldl
    (fun acc v => (substituteTerm (.var v) (.var (name ++ toString acc.2)) acc.1, acc.2 + 1))
    (x, offset))

/-! ## unify.py: the unification algorithm -/

/-- The two failure modes of `unify`: `NoSolutionError` (rules conflict and
check) and `ValueError` (support filter rejects the solved set). -/
inductive UErr where
  | noSolution
  | unsupported
  deriving DecidableEq, Repr

/-- `_decompose_functions` from `unify.py`. -/
def decomposeFunctions (lhs rhs : Term) : Except UErr (List Equation) :=
  match lhs, rhs with
  | .num, .num => .ok []
  | .bool, .bool => .ok []
  | .list a, .list b => .ok [(a, b)]
  | .app a b, .app c d => .ok [(a, c), (b, d)]
  | _, _ => .error .noSolution

/-- `_check_type` from `unify.py`: the support filter on a single term. -/
def checkType : Term → Bool
  | .var _ => true
  | .num => true
  | .bool => true
  | .list a =>
    match a with
    | .num => true
    | .bool => true
    | .var _ => true
    | _ => false
  | .app a b => checkType a && checkType b

/-- `_check_equation` from `unify.py`. -/
def checkEquation (eq : Equation) : Bool :=
  checkType eq.1 && checkType eq.2

/-- `_check_list` from `unify.py`. -/
def checkList (c : List Equation) : Bool :=
  c.all checkEquation

/-- Rule dispatch of `_apply_rule` from `unify.py`, with the Python locals
(`lhs`, `rhs` from the `pop(idx)`, `rest`, and the original list to restore)
passed explicitly. -/
def applyRuleCore (equations rest : List Equation) (lhs rhs : Term) :
    Except UErr (List Equation × Bool) :=
  if lhs = rhs then  -- delete
    .ok (rest, true)
  else if lhs.isFun ∧ rhs.isFun then  -- decompose and conflict
    match decomposeFunctions lhs rhs with
    | .error er => .error er
    | .ok comps => .ok (rest ++ comps, true)
  else if lhs.isFun ∧ ¬ rhs.isFun then  -- swap
    .ok (rest ++ [(rhs, lhs)], true)
  else if ¬ lhs.isFun ∧ ¬ occursIn lhs rhs ∧ occursInEquations lhs rest then  -- eliminate
    .ok (substituteList lhs rhs rest ++ [(lhs, rhs)], true)
  else if ¬ lhs.isFun ∧ rhs.isFun ∧ occursIn lhs rhs then  -- check
    .error .noSolution
  else  -- no rule applies: Python restores the popped equation
    .ok (equations, false)

/-- `_apply_rule` from `unify.py`: try to apply a unification rule to the
equation at `idx`; return the resulting list and whether a rule applied.
Callers only use in-range indices (Python `pop(idx)` inside the
`range(len(...))` loop), so the out-of-range default is never reached. -/
def applyRule (equations : List Equation) (idx : Nat) :
    Except UErr (List Equation × Bool) :=
  applyRuleCore equations (equations.eraseIdx idx)
    (equations.getD idx (.num, .num)).1 (equations.getD idx (.num, .num)).2

/-- The `for idx in range(len(equations))` loop of `unify`: starting at
`idx` with `n` iterations left, return the list produced by the first
applicable rule, `none` if no rule applies to any equation, or the error a
rule raises. -/
def findRuleGo (equations : List Equation) : Nat → Nat → Except UErr (Option (List Equation))
  | _, 0 => .ok none
  | idx, n + 1 =>
    match applyRule equations idx with
    | .error e => .error e
    | .ok (res, true) => .ok (some res)
    | .ok (_, false) => findRuleGo equations (idx + 1) n

/-- The loop of `unify` from index `idx` to the end of the list. -/
def findRuleFrom (equations : List Equation) (idx : Nat) :
    Except UErr (Option (List Equation)) :=
  findRuleGo equations idx (equations.length - idx)

/-- `unify` from `unify.py`, with fuel for the unbounded recursion
(`none` = out of fuel, asserting nothing about the Python run). -/
def unifyFuel : Nat → List Equation → Option (Except UErr (List Equation))
  | 0, _ => none
  | fuel + 1, equations =>
    if equations = [] then some (.ok [])
    else
      match findRuleFrom equations 0 with
      | .error e => some (.error e)
      | .ok (some result) => unifyFuel fuel result
      | .ok none =>
        if checkList equations then some (.ok equations)
        else some (.error .unsupported)

/-! ## Lemmas about the unifier's solved forms -/

theorem mem_freeVariablesEquations_aux (x : String) (eqs : List Equation) :
    ∀ acc : Finset String,
      (x ∈ eqs.foldl (fun acc eq => acc ∪ (freeVariables eq.1 ∪ freeVariables eq.2)) acc ↔
        x ∈ acc ∨ ∃ eq ∈ eqs, x ∈ freeVariables eq.1 ∨ x ∈ freeVariables eq.2) := by
  induction eqs with
  | nil => intro acc; simp
  | cons e rest ih =>
    intro acc
    rw [List.foldl_cons, ih]
    simp only [Finset.mem_union, List.mem_cons]
    constructor
    · rintro ((h | h) | ⟨eq, hm, hx⟩)
      · exact Or.inl h
      · exact Or.inr ⟨e, Or.inl rfl, by simpa using h⟩
      · exact Or.inr ⟨eq, Or.inr hm, hx⟩
    · rintro (h | ⟨eq, (rfl | hm), hx⟩)
      · exact Or.inl (Or.inl h)
      · exact Or.inl (Or.inr (by simpa using hx))
      · exact Or.inr ⟨eq, hm, hx⟩

theorem mem_freeVariablesEquations {x : String} {eqs : List Equation} :
    x ∈ freeVariablesEquations eqs ↔
      ∃ eq ∈ eqs, x ∈ freeVariables eq.1 ∨ x ∈ freeVariables eq.2 := by
  unfold freeVariablesEquations
  rw [mem_freeVariablesEquations_aux]
  simp

theorem getElem_mem_eraseIdx {α : Type} {l : List α} {i j : Nat} (hj : j < l.length)
    (hne : j ≠ i) : l.get ⟨j, hj⟩ ∈ l.eraseIdx i := by
  rw [List.eraseIdx_eq_take_drop_succ]
  rcases Nat.lt_or_ge j i with hlt | hge
  · apply List.mem_append_left
    have hjt : j < (l.take i).length := by
      simp only [List.length_take]
      exact Nat.lt_min.mpr ⟨hlt, hj⟩
    have : (l.take i).get ⟨j, hjt⟩ = l.get ⟨j, hj⟩ := by
      simp [List.getElem_take]
    rw [← this]
    exact List.get_mem _ _ _
  · have hgt : i + 1 ≤ j := Nat.lt_of_le_of_ne hge (fun h => hne h.symm)
    apply List.mem_append_right
    have hjd : j - (i + 1) < (l.drop (i + 1)).length := by
      simp only [List.length_drop]
      omega
    have : (l.drop (i + 1)).get ⟨j - (i + 1), hjd⟩ = l.get ⟨j, hj⟩ := by
      simp only [List.get_eq_getElem, List.getElem_drop]
      congr 1
      omega
    rw [← this]
    exact List.get_mem _ _ _

/-- A rule application that reports `applied = False` restores the input list
(the final `else` branch of `_apply_rule`). -/
theorem applyRuleCore_not_applied {eqs rest r : List Equation} {lhs rhs : Term}
    (h : applyRuleCore eqs rest lhs rhs = .ok (r, false)) : r = eqs := by
  unfold applyRuleCore at h
  split_ifs at h
  · simp at h
  · rcases hd : decomposeFunctions lhs rhs with e | comps <;> rw [hd] at h <;> simp at h
  · simp at h
  · simp at h
  · simp at h
    exact h.symm

theorem applyRule_not_applied {eqs r : List Equation} {i : Nat}
    (h : applyRule eqs i = .ok (r, false)) : r = eqs := by
  unfold applyRule at h
  exact applyRuleCore_not_applied h

/-- When no rule applies, the guards of `_apply_rule` force the
solved-equation shape: the left side is a variable that occurs neither in its
own right side nor anywhere in the remaining equations. -/
theorem applyRuleCore_none_cases {eqs rest eqs' : List Equation} {lhs rhs : Term}
    (h : applyRuleCore eqs rest lhs rhs = .ok (eqs', false)) :
    ∃ x, lhs = .var x ∧ x ∉ freeVariables rhs ∧ ¬ occursInEquations lhs rest := by
  unfold applyRuleCore at h
  split_ifs at h with g1 g2 g3 g4 g5
  · simp at h
  · rcases hd : decomposeFunctions lhs rhs with e | comps <;> rw [hd] at h <;> simp at h
  · simp at h
  · simp at h
  -- remaining case: all guards failed
  have hnf : ¬ lhs.isFun = true := by
    intro hf
    by_cases hr : rhs.isFun = true
    · exact g2 ⟨hf, hr⟩
    · exact g3 ⟨hf, hr⟩
  obtain ⟨x, rfl⟩ : ∃ x, lhs = Term.var x := by
    cases lhs <;> simp [Term.isFun] at hnf ⊢
  have hocc : x ∉ freeVariables rhs := by
    by_cases hr : rhs.isFun = true
    · intro hmem
      exact g5 ⟨by simp [Term.isFun], hr, by simpa [occursIn] using hmem⟩
    · obtain ⟨y, rfl⟩ : ∃ y, rhs = Term.var y := by
        cases rhs <;> simp [Term.isFun] at hr ⊢
      simp only [freeVariables, Finset.mem_singleton]
      intro hxy
      exact g1 (by rw [hxy])
  refine ⟨x, rfl, hocc, ?_⟩
  intro hmem
  exact g4 ⟨by simp [Term.isFun], by simpa [occursIn] using hocc, hmem⟩

theorem applyRule_none_cases {eqs eqs' : List Equation} {i : Nat} (hi : i < eqs.length)
    (h : applyRule eqs i = .ok (eqs', false)) :
    ∃ x, (eqs.get ⟨i, hi⟩).1 = .var x ∧
      x ∉ freeVariables (eqs.get ⟨i, hi⟩).2 ∧
      x ∉ freeVariablesEquations (eqs.eraseIdx i) := by
  unfold applyRule at h
  have hgetD : eqs.getD i (Term.num, Term.num) = eqs.get ⟨i, hi⟩ := by
    simp [List.getD_eq_getElem?_getD, List.getElem?_eq_getElem hi]
  rw [hgetD] at h
  obtain ⟨x, hx, hocc, hrest⟩ := applyRuleCore_none_cases h
  refine ⟨x, hx, hocc, ?_⟩
  intro hmem
  apply hrest
  rw [hx]
  exact hmem

/-- One unfolding of the search loop of `unify`. -/
theorem findRuleFrom_none_step {eqs : List Equation} {k : Nat}
    (h : findRuleFrom eqs k = .ok none) (hk : k < eqs.length) :
    applyRule eqs k = .ok (eqs, false) ∧ findRuleFrom eqs (k + 1) = .ok none := by
  rw [findRuleFrom] at h
  have hn : eqs.length - k = (eqs.length - (k + 1)) + 1 := by omega
  rw [hn, findRuleGo] at h
  rcases ha : applyRule eqs k with e | ⟨res, b⟩
  · rw [ha] at h
    simp at h
  · rw [ha] at h
    cases b
    · simp only [] at h
      refine ⟨?_, h⟩
      rw [applyRule_not_applied ha]
    · simp at h

theorem findRuleFrom_none_ge {eqs : List Equation} {k : Nat}
    (h : findRuleFrom eqs k = .ok none) :
    ∀ i, k ≤ i → findRuleFrom eqs i = .ok none := by
  intro i hki
  induction i, hki using Nat.le_induction with
  | base => exact h
  | succ n hn ih =>
    by_cases hlt : n < eqs.length
    · exact (findRuleFrom_none_step ih hlt).2
    · have hz : eqs.length - (n + 1) = 0 := by omega
      rw [findRuleFrom, hz]
      rfl

/-- If the search loop reports that no rule applies, then no rule applies at
any index. -/
theorem findRuleFrom_none {eqs : List Equation}
    (h : findRuleFrom eqs 0 = .ok none) :
    ∀ i, i < eqs.length → applyRule eqs i = .ok (eqs, false) := by
  intro i hi
  exact (findRuleFrom_none_step (findRuleFrom_none_ge h i (Nat.zero_le i)) hi).1

/-- A successful run of `unify` ends in a list to which no rule applies and
which passed the support filter `_check_list`. -/
theorem unifyFuel_ok {fuel : Nat} {eqs out : List Equation}
    (h : unifyFuel fuel eqs = some (.ok out)) :
    (∀ i, i < out.length → applyRule out i = .ok (out, false)) ∧ checkList out = true := by
  induction fuel generalizing eqs with
  | zero => simp [unifyFuel] at h
  | succ n ih =>
    rw [unifyFuel] at h
    by_cases he : eqs = []
    · rw [if_pos he] at h
      obtain rfl : ([] : List Equation) = out := by simpa using h
      exact ⟨by intro i hi; simp at hi, rfl⟩
    · rw [if_neg he] at h
      rcases hf : findRuleFrom eqs 0 with e | o <;> rw [hf] at h
      · simp at h
      · match o with
        | some result => exact ih h
        | none =>
          by_cases hc : checkList eqs
          · rw [if_pos hc] at h
            obtain rfl : eqs = out := by simpa using h
            exact ⟨findRuleFrom_none hf, hc⟩
          · rw [if_neg hc] at h
            simp at h

/-- C2: whenever `unify` returns successfully, every equation of the returned
list has a variable on its left-hand side; that variable occurs neither in
its own right-hand side nor anywhere (left or right) in any other returned
equation, and in particular no other equation has the same left-hand
variable. -/
theorem unify_solved_form (fuel : Nat) (eqs out : List Equation)
    (h : unifyFuel fuel eqs = some (.ok out)) (i : Nat) (hi : i < out.length) :
    ∃ x, (out.get ⟨i, hi⟩).1 = .var x ∧
      x ∉ freeVariables (out.get ⟨i, hi⟩).2 ∧
      ∀ j (hj : j < out.length), j ≠ i →
        x ∉ freeVariables (out.get ⟨j, hj⟩).1 ∧
        x ∉ freeVariables (out.get ⟨j, hj⟩).2 ∧
        (out.get ⟨j, hj⟩).1 ≠ (out.get ⟨i, hi⟩).1 := by
  obtain ⟨hnr, _⟩ := unifyFuel_ok h
  obtain ⟨x, hx, hocc, hrest⟩ := applyRule_none_cases hi (hnr i hi)
  refine ⟨x, hx, hocc, ?_⟩
  intro j hj hne
  have hmem : out.get ⟨j, hj⟩ ∈ out.eraseIdx i := getElem_mem_eraseIdx hj hne
  have h1 : x ∉ freeVariables (out.get ⟨j, hj⟩).1 := by
    intro hin
    exact hrest (mem_freeVariablesEquations.mpr ⟨_, hmem, Or.inl hin⟩)
  have h2 : x ∉ freeVariables (out.get ⟨j, hj⟩).2 := by
    intro hin
    exact hrest (mem_freeVariablesEquations.mpr ⟨_, hmem, Or.inr hin⟩)
  refine ⟨h1, h2, ?_⟩
  intro heq
  apply h1
  rw [heq, hx]
  simp [freeVariables]

/-- Witness for C2 at a concrete input: `unify [(Var "x", Num)]` succeeds and
the theorem yields the solved-form facts for its only equation. -/
theorem unify_solved_form_witness :
    unifyFuel 1 [((Term.var "x" : Term), Term.num)] =
      some (.ok [((Term.var "x" : Term), Term.num)]) ∧
    ∃ x, (([((Term.var "x" : Term), Term.num)] : List Equation).get ⟨0, by decide⟩).1 = .var x ∧
      x ∉ freeVariables (([((Term.var "x" : Term), Term.num)] : List Equation).get ⟨0, by decide⟩).2 ∧
      ∀ j (hj : j < ([((Term.var "x" : Term), Term.num)] : List Equation).length), j ≠ 0 →
        x ∉ freeVariables (([((Term.var "x" : Term), Term.num)] : List Equation).get ⟨j, hj⟩).1 ∧
        x ∉ freeVariables (([((Term.var "x" : Term), Term.num)] : List Equation).get ⟨j, hj⟩).2 ∧
        (([((Term.var "x" : Term), Term.num)] : List Equation).get ⟨j, hj⟩).1 ≠
          (([((Term.var "x" : Term), Term.num)] : List Equation).get ⟨0, by decide⟩).1 :=
  ⟨by rfl,
   unify_solved_form 1 [(.var "x", .num)] [(.var "x", .num)] (by rfl) 0 (by decide)⟩

/-- C3: whenever `unify` reaches a state where no rule applies and returns,
every term of the returned solved list passes the support filter
(`_check_type`: a `List` may contain only `Num`, `Bool`, or a variable, and
`App` is checked recursively); the filter rejects `List(List(Num))` and
`List(App(Num, Num))`; and if at the no-rule-applies point some term fails
the filter, `unify` raises the unsupported-type failure instead of
returning. -/
theorem unify_support_filter :
    (∀ (fuel : Nat) (eqs out : List Equation), unifyFuel fuel eqs = some (.ok out) →
      ∀ eq ∈ out, checkType eq.1 = true ∧ checkType eq.2 = true) ∧
    checkType (.list (.list .num)) = false ∧
    checkType (.list (.app .num .num)) = false ∧
    ∀ (fuel : Nat) (eqs : List Equation), eqs ≠ [] → findRuleFrom eqs 0 = .ok none →
      checkList eqs = false → unifyFuel (fuel + 1) eqs = some (.error .unsupported) := by
  refine ⟨?_, by decide, by decide, ?_⟩
  · intro fuel eqs out h eq hmem
    have hc := (unifyFuel_ok h).2
    have := List.all_eq_true.mp hc eq hmem
    simpa [checkEquation, Bool.and_eq_true] using this
  · intro fuel eqs hne hnf hcf
    rw [unifyFuel, if_neg hne, hnf]
    simp [hcf]

/-- Witness for C3 at concrete inputs: a successful unification whose output
passes the filter, and a no-rule-applies state with an unsupported term on
which `unify` fails with the unsupported-type error. -/
theorem unify_support_filter_witness :
    (∀ eq ∈ ([((Term.var "x" : Term), Term.num)] : List Equation),
        checkType eq.1 = true ∧ checkType eq.2 = true) ∧
    unifyFuel 1 [((Term.var "x" : Term), Term.list (Term.list Term.num))] =
      some (.error .unsupported) :=
  ⟨unify_support_filter.1 1 [(.var "x", .num)] [(.var "x", .num)] (by rfl),
   unify_support_filter.2.2.2 0 [(.var "x", .list (.list .num))] (by decide) (by rfl)
     (by rfl)⟩

/-! ## Decimal representations are injective

`alpha_conversion` builds fresh variable names `f"{name}{offset}"`; to reason
about their distinctness we show that the decimal rendering of a natural
number can be decoded again. -/

/-- Decode one decimal digit character onto an accumulator. -/
def decodeDigit (acc : Nat) (c : Char) : Nat := acc * 10 + (c.toNat - 48)

/-- Number of digits `Nat.toDigitsCore` produces, with the same fuel
recursion. -/
def numDigitsCore : Nat → Nat → Nat
  | 0, _ => 0
  | f + 1, n => if n / 10 = 0 then 1 else numDigitsCore f (n / 10) + 1

theorem digitChar_toNat (m : Nat) (h : m < 10) : (Nat.digitChar m).toNat = 48 + m := by
  have hall : ∀ j : Fin 10, (Nat.digitChar j.val).toNat = 48 + j.val := by decide
  exact hall ⟨m, h⟩

theorem decode_toDigitsCore :
    ∀ (f n : Nat) (ds : List Char) (acc : Nat), n < f →
      (Nat.toDigitsCore 10 f n ds).foldl decodeDigit acc =
        ds.foldl decodeDigit (acc * 10 ^ numDigitsCore f n + n) := by
  intro f
  induction f with
  | zero => intro n ds acc h; omega
  | succ f ih =>
    intro n ds acc _
    rw [Nat.toDigitsCore]
    by_cases hz : n / 10 = 0
    · have hn : n < 10 := by omega
      rw [if_pos hz]
      simp only [List.foldl_cons, numDigitsCore, if_pos hz, pow_one, decodeDigit]
      rw [digitChar_toNat (n % 10) (Nat.mod_lt n (by omega))]
      congr 1
      omega
    · have hlt : n / 10 < f := by omega
      rw [if_neg hz]
      rw [ih (n / 10) (Nat.digitChar (n % 10) :: ds) acc hlt]
      simp only [List.foldl_cons, numDigitsCore, if_neg hz, decodeDigit]
      congr 1
      rw [digitChar_toNat (n % 10) (Nat.mod_lt n (by omega))]
      have : acc * 10 ^ (numDigitsCore f (n / 10) + 1) =
          acc * 10 ^ numDigitsCore f (n / 10) * 10 := by ring
      rw [this]
      omega

/-- Decode a string of decimal digits. -/
def decodeString (s : String) : Nat := s.data.foldl decodeDigit 0

theorem decodeString_repr (n : Nat) : decodeString (Nat.repr n) = n := by
  have h := decode_toDigitsCore (n + 1) n [] 0 (Nat.lt_succ_self n)
  simpa [decodeString, Nat.repr, Nat.toDigits, List.asString] using h

theorem natRepr_injective {a b : Nat} (h : Nat.repr a = Nat.repr b) : a = b := by
  have := congrArg decodeString h
  rwa [decodeString_repr, decodeString_repr] at this

theorem string_append_left_cancel {p a b : String} (h : p ++ a = p ++ b) : a = b := by
  rcases p with ⟨pd⟩
  rcases a with ⟨ad⟩
  rcases b with ⟨bd⟩
  have hd : pd ++ ad = pd ++ bd := congrArg String.data h
  have := List.append_cancel_left hd
  rw [this]

theorem int_toString_nonneg_injective {a b : Int} (ha : 0 ≤ a) (hb : 0 ≤ b)
    (h : toString a = toString b) : a = b := by
  obtain ⟨m, rfl⟩ := Int.eq_ofNat_of_zero_le ha
  obtain ⟨k, rfl⟩ := Int.eq_ofNat_of_zero_le hb
  have hm : Nat.repr m = Nat.repr k := h
  rw [natRepr_injective hm]

/-! ## Alpha equivalence (C8) -/

/-- Apply a variable renaming to a term. -/
def renameTerm (f : String → String) : Term → Term
  | .var y => .var (f y)
  | .num => .num
  | .bool => .bool
  | .list a => .list (renameTerm f a)
  | .app a b => .app (renameTerm f a) (renameTerm f b)

/-- "Equivalent up to variable renaming": a renaming that is injective on the
free variables of `t` carries `t` to `t'`. -/
def alphaEquiv (t t' : Term) : Prop :=
  ∃ f : String → String, Set.InjOn f ↑(freeVariables t) ∧ renameTerm f t = t'

theorem renameTerm_id (t : Term) : renameTerm id t = t := by
  induction t with
  | var y => rfl
  | num => rfl
  | bool => rfl
  | list a ih => simp [renameTerm, ih]
  | app a b iha ihb => simp [renameTerm, iha, ihb]
/-- Substituting a variable for a variable inside a renamed term is again a
renamed term. -/
theorem substituteTerm_renameTerm (v n : String) (g : String → String) (t : Term) :
    substituteTerm (.var v) (.var n) (renameTerm g t) =
      renameTerm (fun y => if g y = v then n else g y) t := by
  induction t with
  | var y =>
    simp only [renameTerm, substituteTerm]
    by_cases hv : g y = v
    · simp [hv]
    · have h1 : ¬ (Term.var v = Term.var (g y)) := by
        intro h
        injection h with h2
        exact hv h2.symm
      rw [if_neg h1, if_neg hv]
  | num => rfl
  | bool => rfl
  | list a ih => simp [renameTerm, substituteTerm, ih]
  | app a b iha ihb => simp [renameTerm, substituteTerm, iha, ihb]

/-- The renaming accumulated by the substitution loop of `alpha_conversion`. -/
def updChain (name : String) : List String → Int → (String → String) → (String → String)
  | [], _, g => g
  | v :: rest, offset, g =>
    updChain name rest (offset + 1) (fun y => if g y = v then name ++ toString offset else g y)

theorem alphaConversion_foldl (name : String) :
    ∀ (order : List String) (g : String → String) (t : Term) (offset : Int),
      order.foldl
        (fun acc v => (substituteTerm (.var v) (.var (name ++ toString acc.2)) acc.1, acc.2 + 1))
        (renameTerm g t, offset) =
      (renameTerm (updChain name order offset g) t, offset + order.length) := by
  intro order
  induction order with
  | nil => intro g t offset; simp [updChain]
  | cons v rest ih =>
    intro g t offset
    rw [List.foldl_cons]
    have hstep :
        (substituteTerm (.var v) (.var (name ++ toString (renameTerm g t, offset).2))
            (renameTerm g t, offset).1,
          (renameTerm g t, offset).2 + 1) =
        ((renameTerm (fun y => if g y = v then name ++ toString offset else g y) t : Term),
          offset + 1) := by
      simp only []
      rw [substituteTerm_renameTerm]
    rw [hstep, ih, updChain]
    simp only [Prod.mk.injEq, List.length_cons]
    constructor
    · trivial
    · push_cast
      ring

/-- Once a variable's image is no longer hit by the remaining work list, the
chain leaves it unchanged. -/
theorem updChain_const (name : String) :
    ∀ (order : List String) (offset : Int) (g : String → String) (y : String),
      g y ∉ order → updChain name order offset g y = g y := by
  intro order
  induction order with
  | nil => intro offset g y _; rfl
  | cons v rest ih =>
    intro offset g y hy
    rw [updChain]
    have hne : g y ≠ v := fun h => hy (h ▸ List.mem_cons_self v rest)
    have hrest : g y ∉ rest := fun h => hy (List.mem_cons_of_mem v h)
    rw [ih (offset + 1) _ y ?hm]
    case hm =>
      show (if g y = v then name ++ toString offset else g y) ∉ rest
      rw [if_neg hne]
      exact hrest
    show (if g y = v then name ++ toString offset else g y) = g y
    rw [if_neg hne]

/-- Under the chain, the variable at position `j` of the work list is mapped
to the `j`-th fresh name, provided the fresh names collide with no element of
the work list. -/
theorem updChain_spec (name : String) :
    ∀ (order : List String) (offset : Int) (g : String → String),
      order.Nodup →
      (∀ i : Nat, i < order.length → (name ++ toString (offset + i)) ∉ order) →
      ∀ (j : Nat) (hj : j < order.length) (y : String),
        g y = y → order.get ⟨j, hj⟩ = y →
        updChain name order offset g y = name ++ toString (offset + j) := by
  intro order
  induction order with
  | nil => intro offset g _ _ j hj; simp at hj
  | cons v rest ih =>
    intro offset g hnd hfresh j hj y hgy hget
    rw [updChain]
    cases j with
    | zero =>
      have hyv : y = v := by simpa using hget.symm
      have hcond : g y = v := by rw [hgy]; exact hyv
      have hoz : offset + ((0 : Nat) : Int) = offset := by simp
      have hnotin : name ++ toString offset ∉ rest := by
        have h0 := hfresh 0 (by simp)
        rw [hoz] at h0
        exact fun h => h0 (List.mem_cons_of_mem v h)
      rw [updChain_const name rest (offset + 1) _ y ?hm0]
      case hm0 =>
        show (if g y = v then name ++ toString offset else g y) ∉ rest
        rw [if_pos hcond]
        exact hnotin
      show (if g y = v then name ++ toString offset else g y) =
        name ++ toString (offset + ((0 : Nat) : Int))
      rw [if_pos hcond, hoz]
    | succ j' =>
      have hj' : j' < rest.length := by simpa using hj
      have hyrest : y ∈ rest := by
        rw [← hget]
        simp only [List.get_eq_getElem, List.getElem_cons_succ]
        exact List.getElem_mem _
      have hvy : y ≠ v := by
        intro he
        exact (List.nodup_cons.mp hnd).1 (he ▸ hyrest)
      have hcond : ¬ g y = v := by rw [hgy]; exact hvy
      have hfresh2 : ∀ i : Nat, i < rest.length →
          (name ++ toString (offset + 1 + i)) ∉ rest := by
        intro i hi hmem
        have hcast : offset + 1 + (i : Int) = offset + ((i + 1 : Nat) : Int) := by
          push_cast; ring
        have h1 := hfresh (i + 1) (by simpa using Nat.succ_lt_succ hi)
        rw [← hcast] at h1
        exact h1 (List.mem_cons_of_mem v hmem)
      have hg2 : (if g y = v then name ++ toString offset else g y) = y := by
        rw [if_neg hcond]
        exact hgy
      have hget2 : rest.get ⟨j', hj'⟩ = y := by simpa using hget
      have hmain := ih (offset + 1)
        (fun z => if g z = v then name ++ toString offset else g z)
        (List.nodup_cons.mp hnd).2 hfresh2 j' hj' y hg2 hget2
      rw [hmain]
      have hcast : offset + 1 + (j' : Int) = offset + ((j' + 1 : Nat) : Int) := by
        push_cast; ring
      rw [hcast]

/-- C8 counterexample: on `App(Var "p0", Var "x")` with prefix `"p"` and
offset `0`, processing the free-variable set in the order `["x", "p0"]`
(set-iteration order is unspecified in the source), `alpha_conversion`
returns `App(Var "p1", Var "p1")`: the offset part of the claim holds, but
the result collapses two distinct variables and is not alpha-equivalent to
the input. -/
theorem alpha_conversion_counterexample :
    (["x", "p0"].Nodup ∧
      ∀ v, v ∈ ["x", "p0"] ↔ v ∈ freeVariables (.app (.var "p0") (.var "x"))) ∧
    alphaConversion (.app (.var "p0") (.var "x")) "p" 0 ["x", "p0"] =
      .ok (.app (.var "p1") (.var "p1"), 2) ∧
    ¬ alphaEquiv (.app (.var "p0") (.var "x")) (.app (.var "p1") (.var "p1")) := by
  refine ⟨⟨by decide, by intro v; simp [freeVariables]; tauto⟩, by rfl, ?_⟩
  rintro ⟨f, hinj, hren⟩
  simp only [renameTerm, Term.app.injEq, Term.var.injEq] at hren
  have hm1 : "p0" ∈ (↑(freeVariables (.app (.var "p0") (.var "x"))) : Set String) := by
    rw [Finset.mem_coe]
    decide
  have hm2 : "x" ∈ (↑(freeVariables (.app (.var "p0") (.var "x"))) : Set String) := by
    rw [Finset.mem_coe]
    decide
  have : "p0" = "x" := hinj hm1 hm2 (by rw [hren.1, hren.2])
  exact absurd this (by decide)

/-- C8 (amended): for every term `t`, prefix, non-negative offset and
enumeration `order` of the free-variable set of `t`, `alpha_conversion`
returns `(t', offset + |fv(t)|)`; if moreover none of the generated fresh
names occurs free in `t` (no capture), `t'` is alpha-equivalent to `t`. -/
theorem alpha_conversion_spec (t : Term) (name : String) (offset : Int)
    (order : List String) (hoff : offset ≥ 0) (hnd : order.Nodup)
    (hmem : ∀ v, v ∈ order ↔ v ∈ freeVariables t)
    (hfresh : ∀ i : Nat, i < order.length →
      (name ++ toString (offset + i)) ∉ freeVariables t) :
    ∃ t', alphaConversion t name offset order =
        .ok (t', offset + ((freeVariables t).card : Int)) ∧
      alphaEquiv t t' := by
  have hcard : (order.length : Int) = ((freeVariables t).card : Int) := by
    have h1 : order.toFinset = freeVariables t := by
      apply Finset.ext
      intro a
      rw [List.mem_toFinset]
      exact hmem a
    have h2 := List.toFinset_card_of_nodup hnd
    rw [h1] at h2
    exact_mod_cast h2.symm
  have hfresh2 : ∀ i : Nat, i < order.length → (name ++ toString (offset + i)) ∉ order := by
    intro i hi hmemi
    exact hfresh i hi ((hmem _).mp hmemi)
  refine ⟨renameTerm (updChain name order offset id) t, ?_, ?_⟩
  · unfold alphaConversion
    rw [if_neg (by omega)]
    have h0 : ((t : Term), offset) = ((renameTerm id t : Term), offset) := by
      rw [renameTerm_id]
    rw [h0, alphaConversion_foldl, hcard]
  · refine ⟨updChain name order offset id, ?_, rfl⟩
    intro y1 hy1 y2 hy2 heq
    have ho1 : y1 ∈ order := (hmem y1).mpr (Finset.mem_coe.mp hy1)
    have ho2 : y2 ∈ order := (hmem y2).mpr (Finset.mem_coe.mp hy2)
    obtain ⟨⟨j1, hj1⟩, hget1⟩ := List.mem_iff_get.mp ho1
    obtain ⟨⟨j2, hj2⟩, hget2⟩ := List.mem_iff_get.mp ho2
    have hu1 := updChain_spec name order offset id hnd hfresh2 j1 hj1 y1 rfl hget1
    have hu2 := updChain_spec name order offset id hnd hfresh2 j2 hj2 y2 rfl hget2
    rw [hu1, hu2] at heq
    have hts := string_append_left_cancel heq
    have hj12 : (offset + (j1 : Int)) = (offset + (j2 : Int)) :=
      int_toString_nonneg_injective (by omega) (by omega) hts
    have hjj : j1 = j2 := by omega
    subst hjj
    rw [← hget1, ← hget2]

/-- Witness for C8 at the docstring's own example `Num -> a -> a`, prefix
`"new"`, offset `0`. -/
theorem alpha_conversion_spec_witness :
    ∃ t', alphaConversion (.app .num (.app (.var "a") (.var "a"))) "new" 0 ["a"] =
        .ok (t', 0 + ((freeVariables (.app .num (.app (.var "a") (.var "a")))).card : Int)) ∧
      alphaEquiv (.app .num (.app (.var "a") (.var "a"))) t' :=
  alpha_conversion_spec (.app .num (.app (.var "a") (.var "a"))) "new" 0 ["a"]
    (by norm_num) (by decide)
    (by intro v; simp [freeVariables])
    (by
      intro i hi
      simp only [List.length_cons, List.length_nil] at hi
      have h0 : i = 0 := by omega
      subst h0
      decide)

/-! ## helper_type.py: values -/

/-- `PValue` from `helper_type.py`: `int | float | bool`.  Python floats are
IEEE doubles; they are modelled as exact rationals, a deliberate idealization
(no claim of this development depends on rounding). -/
inductive PValue where
  | int (n : Int)
  | float (q : Rat)
  | bool (b : Bool)
  deriving DecidableEq, Repr

/-- `Expr`/`Stmt` from `helper_type.py`: lists of names. -/
abbrev Expr := List String

/-- `Instruction` from `helper_type.py`: `(temp_name, expr)` or
`(None, stmt)`. -/
abbrev Instruction := Option String × List String

/-- `Path` from `helper_type.py`. -/
abbrev Path := List String

/-- `Tree` from `tree.py`: path from the root, a block of instructions, and
optional true/false children. -/
inductive Tree where
  | node (path : Path) (block : List Instruction) (tr : Option Tree) (fl : Option Tree)

def Tree.path : Tree → Path
  | .node p _ _ _ => p

def Tree.block : Tree → List Instruction
  | .node _ b _ _ => b

def Tree.tr : Tree → Option Tree
  | .node _ _ t _ => t

def Tree.fl : Tree → Option Tree
  | .node _ _ _ f => f

mutual
/-- `Value` from `helper_type.py`: `PValue | list[PValue] | Function`. -/
inductive Value where
  | prim (p : PValue)
  | vlist (l : List PValue)
  | func (f : Func)

/-- `Function` objects.  `builtin` (`builtin_function.py`) carries the
operator name.  `custom` is modelled from the spec (§4.5): `custom_function.py`
is not in `src/`; per the spec it carries a signature, a branch tree, a
constant environment, and a unique id.  The signature is an `Option` because
`generate_function` can pass `None` when the scan finds no binding. -/
inductive Func where
  | builtin (builtin : String) (functionSignature : Term) (uniqueId : Nat)
  | custom (functionSignature : Option Term) (instructions : Tree)
      (constants : List (String × Value)) (uniqueId : Nat)
end

def Func.functionSignature? : Func → Option Term
  | .builtin _ sig _ => some sig
  | .custom sig _ _ _ => sig

def Func.uniqueId : Func → Nat
  | .builtin _ _ u => u
  | .custom _ _ _ u => u

/-- The exception kinds the backend distinguishes (see `exceptions.py` and
the Python built-in exceptions the code raises or documents).
`dynamicError` marks dynamic-typing corners outside the modelled value
fragment (e.g. building a Python list that holds a non-primitive);
`outOfFuel` marks fuel exhaustion of the embedding and corresponds to no
Python behaviour. -/
inductive Err where
  | valueError
  | typeError
  | keyError
  | indexError
  | modeError
  | noneAsFunArg
  | algotRuntimeError
  | noSolutionError
  | attributeError
  | assertionError
  | dynamicError
  | outOfFuel
  deriving DecidableEq, Repr

/-! ## helpers.py -/

/-- `ARGUMENT_TYPE_PREFIX` from `helpers.py`. -/
def ARGUMENT_TYPE_PREFIX : String := "z"

/-- `FUNCTION_TYPE_PREFIX` from `helpers.py`. -/
def FUNCTION_TYPE_PREFIX : String := "y"

/-- Type of a primitive value (the scalar cases of `infer_value_type`;
`bool` is checked before `int`/`float`, as in the source). -/
def inferPValueType : PValue → Term
  | .bool _ => .bool
  | .int _ => .num
  | .float _ => .num

/-- `infer_value_type` from `helpers.py`.  A custom function whose signature
is the `None` scan result makes every later use fail; that failure is
surfaced here as `assertionError`. -/
def inferValueType : Value → Except Err Term
  | .prim p => .ok (inferPValueType p)
  | .vlist [] => .ok (.list (.var "a"))
  | .vlist (x :: _) => .ok (.list (inferPValueType x))
  | .func f =>
    match f.functionSignature? with
    | some sig => .ok sig
    | none => .error .assertionError

/-- `infer_value_type` applied to a possibly-`None` value; `None` falls
through every `match` case to `assert False`. -/
def inferValueTypeO : Option Value → Except Err Term
  | some v => inferValueType v
  | none => .error .assertionError

/-- `get_supported_element_types` from `helpers.py`. -/
def getSupportedElementTypes (value : Value) : Finset Term :=
  match inferValueType value with
  | .ok (.list (.var _)) => {(.num : Term), .bool}
  | .ok (.list .num) => {(.num : Term)}
  | .ok (.list .bool) => {(.bool : Term)}
  | _ => ∅

/-- `combine_into_app` from `helpers.py`. -/
def combineIntoApp : List Term → Except Err Term
  | [] => .error .valueError
  | [x] => .ok x
  | [x, y] => .ok (.app x y)
  | x :: y :: z :: others =>
    match combineIntoApp (y :: z :: others) with
    | .error e => .error e
    | .ok rest => .ok (.app x rest)

/-- `decompose_term` from `helpers.py`. -/
def decomposeTerm : Term → List Term
  | .app a b => [a] ++ decomposeTerm b
  | t => [t]

/-- `drop_last_type_app` from `helpers.py` (`del decomposition[-1]` then
recombine). -/
def dropLastTypeApp (t : Term) : Except Err Term :=
  combineIntoApp (decomposeTerm t).dropLast

/-- Free variables of a term in textual (left-to-right) order, possibly with
duplicates. -/
def fvList : Term → List String
  | .var x => [x]
  | .num => []
  | .bool => []
  | .list a => fvList a
  | .app a b => fvList a ++ fvList b

/-- The iteration order the embedding fixes for Python's set iteration in
`alpha_conversion`: free variables in order of first occurrence.  (The
source's order is unspecified; see `alphaConversion`.) -/
def fvOrder (t : Term) : List String := (fvList t).dedup

/-- `alpha_conversion` with the embedding's canonical iteration order, and
`ValueError` for a negative offset. -/
def alphaConv (x : Term) (name : String) (offset : Int) : Except Err (Term × Int) :=
  match alphaConversion x name offset (fvOrder x) with
  | .error () => .error .valueError
  | .ok r => .ok r

/-- `infer_argument_signature` from `helpers.py`: type each argument, alpha
convert each with prefix `"z"` and a shared running offset, then combine. -/
def inferArgumentSignature (args : List (Option Value)) : Except Err Term := do
  let argTypes ← args.mapM inferValueTypeO
  let res ← argTypes.foldlM (fun (acc : List Term × Int) ty => do
      let conv ← alphaConv ty ARGUMENT_TYPE_PREFIX acc.2
      return (acc.1 ++ [conv.1], conv.2)) (([], 0) : List Term × Int)
  combineIntoApp res.1

/-! ## builtin_function.py: the catalogue -/

def typeVariable0 : Term := .var (FUNCTION_TYPE_PREFIX ++ "0")

def listTypeVariable0 : Term := .list typeVariable0

def typeVariable1 : Term := .var (FUNCTION_TYPE_PREFIX ++ "1")

def listTypeVariable1 : Term := .list typeVariable1

/-- `BuiltinFunction.arithmetic_operations`: `Num -> Num -> Num`. -/
def arithmeticOperations : List (String × Term) :=
  ["+", "-", "*", "/", "//", "%"].map (fun op => (op, .app .num (.app .num .num)))

/-- `BuiltinFunction.comparison_operations`: `Num -> Num -> Bool`. -/
def comparisonOperations : List (String × Term) :=
  ["==", "!=", ">", "<", ">=", "<="].map (fun op => (op, .app .num (.app .num .bool)))

/-- `BuiltinFunction.boolean_operations`. -/
def booleanOperations : List (String × Term) :=
  [("and", .app .bool (.app .bool .bool)),
   ("or", .app .bool (.app .bool .bool)),
   ("not", .app .bool .bool)]

/-- `BuiltinFunction.list_operations`.  Note: the source code written for
`filter` uses `list_type_variable_1` in result position, although its inline
comment reads `filter: (y0 -> Bool) -> [y0] -> [y0]`. -/
def listOperations : List (String × Term) :=
  [("len", .app listTypeVariable0 .num),
   ("head", .app listTypeVariable0 typeVariable0),
   ("last", .app listTypeVariable0 typeVariable0),
   ("tail", .app listTypeVariable0 listTypeVariable0),
   ("init", .app listTypeVariable0 listTypeVariable0),
   ("concat", .app listTypeVariable0 (.app listTypeVariable0 listTypeVariable0)),
   ("map", .app (.app typeVariable0 typeVariable1)
      (.app listTypeVariable0 listTypeVariable1)),
   ("filter", .app (.app typeVariable0 .bool)
      (.app listTypeVariable0 listTypeVariable1)),
   ("cons", .app typeVariable0 (.app listTypeVariable0 listTypeVariable0))]

/-- `BuiltinFunction.supported_operations` (the dict unions preserve this
order; all keys are distinct). -/
def supportedOperations : List (String × Term) :=
  arithmeticOperations ++ comparisonOperations ++ booleanOperations ++ listOperations

/-- C5: the catalogue's entry for `filter` is
`(y0 -> Bool) -> [y0] -> [y1]` - the result list's element-type variable
`y1` is a different variable from the input list's `y0`, so the claimed
reuse of the input element variable does not hold in the code (the source's
own inline comment reads `filter: (y0 -> Bool) -> [y0] -> [y0]`). -/
theorem filter_signature :
    List.lookup "filter" supportedOperations =
      some (.app (.app (.var "y0") .bool) (.app (.list (.var "y0")) (.list (.var "y1")))) ∧
    (Term.var "y1" : Term) ≠ .var "y0" :=
  ⟨rfl, by decide⟩

/-! ## Python dict and list-index semantics -/

/-- Insert-or-update of a Python dict rendered as an association list:
updates keep their place, new keys append (Python dicts preserve insertion
order). -/
def assocSet {α : Type} : List (String × α) → String → α → List (String × α)
  | [], k, v => [(k, v)]
  | (k', v') :: rest, k, v =>
    if k' = k then (k, v) :: rest else (k', v') :: assocSet rest k v

/-- `del d[k]` for an association list (the caller checks presence first
where Python raises `KeyError`). -/
def assocDelete {α : Type} (l : List (String × α)) (k : String) : List (String × α) :=
  l.filter (fun kv => kv.1 ≠ k)

/-- Python sequence indexing: non-negative from the front, negative from the
back, `none` when out of range (`IndexError`). -/
def pyIdx (len : Nat) (i : Int) : Option Nat :=
  if 0 ≤ i ∧ i < len then some i.toNat
  else if -(len : Int) ≤ i ∧ i < 0 then some ((len : Int) + i).toNat
  else none

/-- Python slice `l[:i]`. -/
def pySliceTo {α : Type} (l : List α) (i : Int) : List α :=
  if 0 ≤ i then l.take i.toNat
  else l.take (max 0 ((l.length : Int) + i)).toNat

/-- Python slice `l[i:]`. -/
def pySliceFrom {α : Type} (l : List α) (i : Int) : List α :=
  if 0 ≤ i then l.drop i.toNat
  else l.drop (max 0 ((l.length : Int) + i)).toNat

/-- Python `list.insert` index clamping. -/
def pyInsertIdx (len : Nat) (i : Int) : Nat :=
  if i < 0 then (max 0 ((len : Int) + i)).toNat
  else if i > (len : Int) then len else i.toNat

/-! ## Python numeric semantics

Arithmetic in `BuiltinFunction.compute` is Python's: `bool` participates as
`0`/`1`, an operation on two non-floats yields an `int`, floats are
contagious, `/` always yields a float, `//` and `%` use floor conventions. -/

def PValue.toRat : PValue → Rat
  | .int n => (n : Rat)
  | .float q => q
  | .bool b => if b then 1 else 0

/-- Integer reading of a non-float `PValue` (only used when neither operand
is a float). -/
def PValue.toIntVal : PValue → Int
  | .int n => n
  | .float _ => 0
  | .bool b => if b then 1 else 0

def PValue.isFloat : PValue → Bool
  | .float _ => true
  | _ => false

def pyArith (intOp : Int → Int → Int) (ratOp : Rat → Rat → Rat) (a b : PValue) : PValue :=
  if a.isFloat || b.isFloat then .float (ratOp a.toRat b.toRat)
  else .int (intOp a.toIntVal b.toIntVal)

def pyAdd : PValue → PValue → PValue := pyArith (· + ·) (· + ·)

def pySub : PValue → PValue → PValue := pyArith (· - ·) (· - ·)

def pyMul : PValue → PValue → PValue := pyArith (· * ·) (· * ·)

/-- Python `/` (true division, result is a float); divisor `0` is checked by
the caller. -/
def pyDiv (a b : PValue) : PValue := .float (a.toRat / b.toRat)

/-- Python `//`: floor division (`Int.fdiv` floors, like Python). -/
def pyFloorDiv (a b : PValue) : PValue :=
  if a.isFloat || b.isFloat then .float (((a.toRat / b.toRat).floor : Int) : Rat)
  else .int (Int.fdiv a.toIntVal b.toIntVal)

/-- Python `%`: remainder with the divisor's sign (`Int.fmod`, and
`a - b * floor(a / b)` for floats). -/
def pyMod (a b : PValue) : PValue :=
  if a.isFloat || b.isFloat then
    .float (a.toRat - b.toRat * (((a.toRat / b.toRat).floor : Int) : Rat))
  else .int (Int.fmod a.toIntVal b.toIntVal)

/-- Python `==` on the values of the system: numeric values compare by
numeric value (`1 == 1.0 == True`), lists elementwise, functions by unique id
(the id is unique per object, so this mirrors identity). -/
def pyValueEq : Value → Value → Bool
  | .prim a, .prim b => a.toRat == b.toRat
  | .vlist a, .vlist b =>
    a.length == b.length && (a.zip b).all fun p => p.1.toRat == p.2.toRat
  | .func f, .func g => f.uniqueId == g.uniqueId
  | _, _ => false

/-- Python truthiness of a possibly-`None` value. -/
def pyTruthy : Option Value → Bool
  | none => false
  | some (.prim (.bool b)) => b
  | some (.prim (.int n)) => n != 0
  | some (.prim (.float q)) => q != 0
  | some (.vlist l) => !l.isEmpty
  | some (.func _) => true

/-! ## function.py: the call contract -/

/-- A call context: names bound to possibly-unknown values. -/
abbrev Context := List (String × Option Value)

/-- `Function.input_context` from `function.py`: reject the unknown sentinel
(`NoneAsFunArg`), return the empty context for a non-arrow signature,
otherwise type check the arguments against the signature's input prefix by
unification (`NoSolutionError` becomes `TypeError`; the support filter's
`ValueError` propagates) and bind the arguments as `in0, in1, ...`. -/
def inputContext (fuel : Nat) (f : Func) (args : List (Option Value)) :
    Except Err Context := do
  if args.any (fun a => a.isNone) then throw .noneAsFunArg
  match f.functionSignature? with
  | none => throw .assertionError  -- Python: the signature match falls to assert False
  | some sig =>
    match sig with
    | .app _ _ => do
      let argumentSignature ← inferArgumentSignature args
      let functionInputSignature ← dropLastTypeApp sig
      match unifyFuel fuel [(argumentSignature, functionInputSignature)] with
      | none => throw .outOfFuel
      | some (.error .noSolution) => throw .typeError
      | some (.error .unsupported) => throw .valueError
      | some (.ok _) => pure ()
      return args.enum.map (fun p => ("in" ++ toString p.1, p.2))
    | _ => return []

/-- Look a name up in a context; a missing key is Python's `KeyError`, a
`None` or non-primitive where the operation needs a concrete value is
unreachable after the checks that precede it. -/
def ctxValue (context : Context) (nm : String) : Except Err Value :=
  match context.lookup nm with
  | none => .error .keyError
  | some none => .error .dynamicError
  | some (some v) => .ok v

mutual

/-- `Function.compute`: dispatch on the function variant
(`BuiltinFunction.compute` from `builtin_function.py`; the custom-function
interpreter is modelled from the spec, §4.5, because `custom_function.py` is
not in `src/`).  Fuel bounds the recursion; exhaustion is `outOfFuel` and
corresponds to no Python behaviour. -/
def computeFunc : Nat → Func → List (Option Value) → Except Err (Option Value)
  | 0, _, _ => .error .outOfFuel
  | fuel + 1, f, args => do
    let context ← inputContext fuel f args
    match f with
    | .builtin b _ _ => computeBuiltin fuel b context
    | .custom _ instructions constants _ =>
      walkNode fuel f (context ++ constants.map (fun kv => (kv.1, some kv.2))) instructions

/-- The operator dispatch of `BuiltinFunction.compute`.  `tail`/`init` are
Python slices, which never raise; the `except IndexError` branches around
them in the source are unreachable. -/
def computeBuiltin : Nat → String → Context → Except Err (Option Value)
  | 0, _, _ => .error .outOfFuel
  | fuel + 1, b, context => do
    match b with
    | "+" => do
      let a ← ctxValue context "in0"
      let c ← ctxValue context "in1"
      match a, c with
      | .prim pa, .prim pc => return some (.prim (pyAdd pa pc))
      | _, _ => throw .dynamicError
    | "-" => do
      let a ← ctxValue context "in0"
      let c ← ctxValue context "in1"
      match a, c with
      | .prim pa, .prim pc => return some (.prim (pySub pa pc))
      | _, _ => throw .dynamicError
    | "*" => do
      let a ← ctxValue context "in0"
      let c ← ctxValue context "in1"
      match a, c with
      | .prim pa, .prim pc => return some (.prim (pyMul pa pc))
      | _, _ => throw .dynamicError
    | "/" => do
      let a ← ctxValue context "in0"
      let c ← ctxValue context "in1"
      match a, c with
      | .prim pa, .prim pc =>
        if pc.toRat = 0 then throw .algotRuntimeError
        else return some (.prim (pyDiv pa pc))
      | _, _ => throw .dynamicError
    | "//" => do
      let a ← ctxValue context "in0"
      let c ← ctxValue context "in1"
      match a, c with
      | .prim pa, .prim pc =>
        if pc.toRat = 0 then throw .algotRuntimeError
        else return some (.prim (pyFloorDiv pa pc))
      | _, _ => throw .dynamicError
    | "%" => do
      let a ← ctxValue context "in0"
      let c ← ctxValue context "in1"
      match a, c with
      | .prim pa, .prim pc =>
        if pc.toRat = 0 then throw .algotRuntimeError
        else return some (.prim (pyMod pa pc))
      | _, _ => throw .dynamicError
    | "==" => do
      let a ← ctxValue context "in0"
      let c ← ctxValue context "in1"
      return some (.prim (.bool (pyValueEq a c)))
    | "!=" => do
      let a ← ctxValue context "in0"
      let c ← ctxValue context "in1"
      return some (.prim (.bool (! pyValueEq a c)))
    | ">" => do
      let a ← ctxValue context "in0"
      let c ← ctxValue context "in1"
      match a, c with
      | .prim pa, .prim pc => return some (.prim (.bool (decide (pc.toRat < pa.toRat))))
      | _, _ => throw .dynamicError
    | "<" => do
      let a ← ctxValue context "in0"
      let c ← ctxValue context "in1"
      match a, c with
      | .prim pa, .prim pc => return some (.prim (.bool (decide (pa.toRat < pc.toRat))))
      | _, _ => throw .dynamicError
    | ">=" => do
      let a ← ctxValue context "in0"
      let c ← ctxValue context "in1"
      match a, c with
      | .prim pa, .prim pc => return some (.prim (.bool (decide (pc.toRat ≤ pa.toRat))))
      | _, _ => throw .dynamicError
    | "<=" => do
      let a ← ctxValue context "in0"
      let c ← ctxValue context "in1"
      match a, c with
      | .prim pa, .prim pc => return some (.prim (.bool (decide (pa.toRat ≤ pc.toRat))))
      | _, _ => throw .dynamicError
    | "and" => do
      let a ← ctxValue context "in0"
      let c ← ctxValue context "in1"
      match a, c with
      | .prim (.bool ba), .prim (.bool bc) => return some (.prim (.bool (ba && bc)))
      | _, _ => throw .dynamicError
    | "or" => do
      let a ← ctxValue context "in0"
      let c ← ctxValue context "in1"
      match a, c with
      | .prim (.bool ba), .prim (.bool bc) => return some (.prim (.bool (ba || bc)))
      | _, _ => throw .dynamicError
    | "not" => do
      let a ← ctxValue context "in0"
      match a with
      | .prim (.bool ba) => return some (.prim (.bool (! ba)))
      | _ => throw .dynamicError
    | "len" => do
      let a ← ctxValue context "in0"
      match a with
      | .vlist l => return some (.prim (.int l.length))
      | _ => throw .dynamicError
    | "head" => do
      let a ← ctxValue context "in0"
      match a with
      | .vlist [] => throw .algotRuntimeError  -- IndexError caught and re-raised
      | .vlist (x :: _) => return some (.prim x)
      | _ => throw .dynamicError
    | "last" => do
      let a ← ctxValue context "in0"
      match a with
      | .vlist [] => throw .algotRuntimeError  -- IndexError caught and re-raised
      | .vlist (x :: xs) => return some (.prim ((x :: xs).getLast (by simp)))
      | _ => throw .dynamicError
    | "tail" => do
      let a ← ctxValue context "in0"
      match a with
      | .vlist l => return some (.vlist (l.drop 1))  -- l[1:]: never raises
      | _ => throw .dynamicError
    | "init" => do
      let a ← ctxValue context "in0"
      match a with
      | .vlist l => return some (.vlist l.dropLast)  -- l[:-1]: never raises
      | _ => throw .dynamicError
    | "concat" => do
      let a ← ctxValue context "in0"
      let c ← ctxValue context "in1"
      match a, c with
      | .vlist la, .vlist lc => return some (.vlist (la ++ lc))
      | _, _ => throw .dynamicError
    | "map" => do
      let a ← ctxValue context "in0"
      let c ← ctxValue context "in1"
      match a, c with
      | .func g, .vlist l => do
        let res ← mapCompute fuel g l
        return some (.vlist res)
      | _, _ => throw .dynamicError
    | "filter" => do
      let a ← ctxValue context "in0"
      let c ← ctxValue context "in1"
      match a, c with
      | .func g, .vlist l => do
        let res ← filterCompute fuel g l
        return some (.vlist res)
      | _, _ => throw .dynamicError
    | "cons" => do
      let a ← ctxValue context "in0"
      let c ← ctxValue context "in1"
      match a, c with
      | .prim pa, .vlist lc => return some (.vlist (pa :: lc))
      | _, _ => throw .dynamicError
    | _ => throw .assertionError

/-- The `map` loop: apply `g` to each element, collecting primitive results
(a non-primitive result would put a non-`PValue` into a Python list, whose
subsequent use fails; the embedding surfaces that at construction). -/
def mapCompute : Nat → Func → List PValue → Except Err (List PValue)
  | 0, _, _ => .error .outOfFuel
  | _ + 1, _, [] => .ok []
  | fuel + 1, g, e :: rest => do
    let r ← computeFunc fuel g [some (.prim e)]
    match r with
    | some (.prim p) => do
      let rs ← mapCompute fuel g rest
      return p :: rs
    | _ => throw .dynamicError

/-- The `filter` loop: keep the elements on which `g` returns a truthy
value. -/
def filterCompute : Nat → Func → List PValue → Except Err (List PValue)
  | 0, _, _ => .error .outOfFuel
  | _ + 1, _, [] => .ok []
  | fuel + 1, g, e :: rest => do
    let r ← computeFunc fuel g [some (.prim e)]
    let rs ← filterCompute fuel g rest
    return if pyTruthy r then e :: rs else rs

/-- Modelled from the spec: walk one branch-tree node of a custom function
(§4.5 step 5); `custom_function.py` is not in `src/`. -/
def walkNode : Nat → Func → Context → Tree → Except Err (Option Value)
  | 0, _, _, _ => .error .outOfFuel
  | fuel + 1, selfF, ctx, node => walkBlock fuel selfF ctx node node.block

/-- Modelled from the spec: execute the instructions of a block in order.
A naming instruction resolves the callee and arguments in the context and
binds the result (`NoneAsFunArg` becomes the unknown sentinel; on `self`
calls `IndexError` does too, §7); `branch` descends into the chosen child
(`IndexError` when absent); `ret` yields the named value; a block exhausted
without a control instruction means the demonstration is incomplete
(`IndexError`). -/
def walkBlock : Nat → Func → Context → Tree → List Instruction → Except Err (Option Value)
  | 0, _, _, _, _ => .error .outOfFuel
  | _ + 1, _, _, _, [] => .error .indexError
  | fuel + 1, selfF, ctx, node, (some temp, expr) :: rest =>
    match expr with
    | [] => .error .indexError
    | fname :: argNames => do
      let argVals ← argNames.mapM (fun nm =>
        match ctx.lookup nm with
        | none => (.error .keyError : Except Err (Option Value))
        | some v => .ok v)
      let result ←
        if fname = "self" then
          match computeFunc fuel selfF argVals with
          | .error .noneAsFunArg => pure none
          | .error .indexError => pure none
          | .error e => throw e
          | .ok v => pure v
        else
          match ctx.lookup fname with
          | none => throw .keyError
          | some none => throw .attributeError
          | some (some (.func g)) =>
            match computeFunc fuel g argVals with
            | .error .noneAsFunArg => pure none
            | .error e => throw e
            | .ok v => pure v
          | some (some _) => throw .attributeError
      walkBlock fuel selfF (assocSet ctx temp result) node rest
  | fuel + 1, selfF, ctx, node, (none, stmt) :: _ =>
    match stmt with
    | ["branch", cond] =>
      match ctx.lookup cond with
      | none => .error .keyError
      | some cv =>
        match (if pyTruthy cv then node.tr else node.fl) with
        | none => .error .indexError
        | some child => walkNode fuel selfF ctx child
    | ["ret", nm] =>
      match ctx.lookup nm with
      | none => .error .keyError
      | some v => .ok v
    | _ => .error .assertionError

end

/-- C4: on an empty list argument, the built-ins `head` and `last` raise
`AlgotRuntimeError`, but `tail` and `init` return `[]` without error: their
Python bodies are slices (`[1:]`, `[:-1]`), which never raise `IndexError`,
so the `except` branches that would raise `AlgotRuntimeError` are dead code
(the signatures are the catalogue's). -/
theorem empty_list_builtins :
    computeFunc 10 (.builtin "head" (.app listTypeVariable0 typeVariable0) 0)
        [some (.vlist [])] = .error .algotRuntimeError ∧
    computeFunc 10 (.builtin "last" (.app listTypeVariable0 typeVariable0) 0)
        [some (.vlist [])] = .error .algotRuntimeError ∧
    computeFunc 10 (.builtin "tail" (.app listTypeVariable0 listTypeVariable0) 0)
        [some (.vlist [])] = .ok (some (.vlist [])) ∧
    computeFunc 10 (.builtin "init" (.app listTypeVariable0 listTypeVariable0) 0)
        [some (.vlist [])] = .ok (some (.vlist [])) :=
  ⟨rfl, rfl, rfl, rfl⟩

/-! ## registers.py -/

/-- `_check_value_type` from `registers.py` (unrecognized inputs fail inside
`infer_value_type` with `AssertionError`, which propagates). -/
def checkValueType (value : Value) : Except Err Unit := do
  match ← inferValueType value with
  | .num => return ()
  | .bool => return ()
  | _ => throw .typeError

/-- `Registers` from `registers.py`. -/
structure Registers where
  registers : List (String × PValue)
  nextId : Nat

def Registers.init : Registers := ⟨[], 0⟩

def Registers.isValidRegister (st : Registers) (register : String) : Bool :=
  (st.registers.lookup register).isSome

/-- `Registers.create_register`.  The checked value is a `Num`/`Bool`, hence
a primitive; the non-primitive fallback is unreachable. -/
def Registers.createRegister (st : Registers) (value : Value) :
    Except Err (String × Registers) := do
  checkValueType value
  match value with
  | .prim p =>
    let registerName := "r" ++ toString st.nextId
    return (registerName, ⟨assocSet st.registers registerName p, st.nextId + 1⟩)
  | _ => throw .dynamicError

/-- `Registers.get_register` (`KeyError` when absent). -/
def Registers.getRegister (st : Registers) (register : String) : Except Err PValue :=
  match st.registers.lookup register with
  | none => .error .keyError
  | some v => .ok v

def Registers.getNames (st : Registers) : List String := st.registers.map (·.1)

/-- `Registers.delete_register` (`del`: `KeyError` when absent). -/
def Registers.deleteRegister (st : Registers) (register : String) :
    Except Err Registers :=
  if (st.registers.lookup register).isSome then
    .ok ⟨assocDelete st.registers register, st.nextId⟩
  else .error .keyError

/-- `Registers.update_register` (`ValueError` when absent). -/
def Registers.updateRegister (st : Registers) (register : String) (value : Value) :
    Except Err Registers := do
  if ¬ st.isValidRegister register then throw .valueError
  checkValueType value
  match value with
  | .prim p => return ⟨assocSet st.registers register p, st.nextId⟩
  | _ => throw .dynamicError

/-! ## lists.py -/

/-- `all_equal` from `helpers.py`. -/
def allEqual (l : List Term) : Bool :=
  match l with
  | [] => true
  | x :: rest => rest.all (· == x)

/-- `_check_list_type` from `lists.py`. -/
def checkListType (value : List PValue) : Except Err Unit := do
  match ← inferValueType (.vlist value) with
  | .list .num => return ()
  | .list .bool => return ()
  | .list (.var _) => return ()
  | _ => throw .typeError

/-- `_check_list_elements` from `lists.py`. -/
def checkListElements (value : List PValue) : Except Err Unit := do
  checkListType value
  if ¬ allEqual (value.map inferPValueType) then throw .typeError

/-- `_check_type_add_value` from `lists.py`. -/
def checkTypeAddValue (listValue : List PValue) (value : PValue) : Except Err Unit :=
  if inferPValueType value ∈ getSupportedElementTypes (.vlist listValue) then .ok ()
  else .error .typeError

/-- `Lists` from `lists.py`.  List values are held by value here; the
aliasing behaviour of `get_list` is studied separately in `RefModel`. -/
structure Lists where
  lists : List (String × List PValue)
  nextId : Nat

def Lists.init : Lists := ⟨[], 0⟩

def Lists.isValidList (st : Lists) (listName : String) : Bool :=
  (st.lists.lookup listName).isSome

/-- `Lists._check_list_name` (`ValueError` when absent). -/
def Lists.checkListName (st : Lists) (listName : String) : Except Err Unit :=
  if st.isValidList listName then .ok () else .error .valueError

/-- `Lists.create_list`. -/
def Lists.createList (st : Lists) (value : List PValue) :
    Except Err (String × Lists) := do
  checkListElements value
  let listName := "l" ++ toString st.nextId
  return (listName, ⟨assocSet st.lists listName value, st.nextId + 1⟩)

/-- `Lists.update_list`. -/
def Lists.updateList (st : Lists) (listName : String) (value : List PValue) :
    Except Err Lists := do
  st.checkListName listName
  checkListElements value
  return ⟨assocSet st.lists listName value, st.nextId⟩

/-- `Lists.get_list` (`KeyError` when absent). -/
def Lists.getList (st : Lists) (listName : String) : Except Err (List PValue) :=
  match st.lists.lookup listName with
  | none => .error .keyError
  | some v => .ok v

def Lists.getNames (st : Lists) : List String := st.lists.map (·.1)

/-- `Lists.get_list_element` (`KeyError`/`IndexError`). -/
def Lists.getListElement (st : Lists) (listName : String) (index : Int) :
    Except Err PValue := do
  let l ← st.getList listName
  match pyIdx l.length index with
  | none => throw .indexError
  | some j => return l.getD j (.int 0)

/-- `Lists.delete_list`. -/
def Lists.deleteList (st : Lists) (listName : String) : Except Err Lists := do
  st.checkListName listName
  return ⟨assocDelete st.lists listName, st.nextId⟩

/-- `Lists.append_to_list`: returns the index of the added element. -/
def Lists.appendToList (st : Lists) (listName : String) (value : PValue) :
    Except Err (Int × Lists) := do
  st.checkListName listName
  let l ← st.getList listName
  checkTypeAddValue l value
  let l2 := l ++ [value]
  return (((l2.length : Int) - 1), ⟨assocSet st.lists listName l2, st.nextId⟩)

/-- `Lists.insert_list_element` (Python `insert` clamps the index). -/
def Lists.insertListElement (st : Lists) (listName : String) (value : PValue)
    (index : Int) : Except Err Lists := do
  st.checkListName listName
  let l ← st.getList listName
  checkTypeAddValue l value
  return ⟨assocSet st.lists listName (l.insertIdx (pyInsertIdx l.length index) value),
    st.nextId⟩

/-- `Lists.update_list_element`: the element being replaced is excluded when
the target type set is computed (`list_value[:index] + list_value[index+1:]`),
then `l[index] = value` (`IndexError` when out of range). -/
def Lists.updateListElement (st : Lists) (listName : String) (value : PValue)
    (index : Int) : Except Err Lists := do
  st.checkListName listName
  let l ← st.getList listName
  checkTypeAddValue (pySliceTo l index ++ pySliceFrom l (index + 1)) value
  match pyIdx l.length index with
  | none => throw .indexError
  | some j => return ⟨assocSet st.lists listName (l.set j value), st.nextId⟩

/-- `Lists.delete_list_element` (`pop(index)`; `IndexError` when out of
range). -/
def Lists.deleteListElement (st : Lists) (listName : String) (index : Int) :
    Except Err Lists := do
  st.checkListName listName
  let l ← st.getList listName
  match pyIdx l.length index with
  | none => throw .indexError
  | some j => return ⟨assocSet st.lists listName (l.eraseIdx j), st.nextId⟩

/-! ## RefModel: lists.py with Python reference semantics (C9)

C9 is about aliasing, so `lists.py` is embedded once more with lists as heap
references: a `Heap` maps addresses to list contents, the store maps names
to addresses.  `copy.deepcopy` allocates a fresh address holding the same
contents; returning a stored list returns the stored address itself
(`return self._lists[list_name]`). -/

namespace RefModel

abbrev Addr := Nat

structure Heap where
  data : List (Addr × List PValue)
  next : Addr

/-- Contents at an address (callers only read live addresses). -/
def Heap.read (h : Heap) (a : Addr) : List PValue := (h.data.lookup a).getD []

/-- In-place mutation of the list object at `a` (e.g. the caller appending
to a list it holds). -/
def Heap.write (h : Heap) (a : Addr) (v : List PValue) : Heap :=
  ⟨(a, v) :: h.data, h.next⟩

/-- `copy.deepcopy`: a fresh object with equal contents. -/
def Heap.alloc (h : Heap) (v : List PValue) : Heap × Addr :=
  (⟨(h.next, v) :: h.data, h.next + 1⟩, h.next)

structure Lists where
  lists : List (String × Addr)
  nextId : Nat

/-- `Lists.create_list`: check the elements, then store
`copy.deepcopy(value)`. -/
def createList (st : Lists) (h : Heap) (value : Addr) :
    Except Err (String × Lists × Heap) := do
  checkListElements (h.read value)
  let listName := "l" ++ toString st.nextId
  let alloc := h.alloc (h.read value)
  return (listName, ⟨assocSet st.lists listName alloc.2, st.nextId + 1⟩, alloc.1)

/-- `Lists.update_list`: check, then bind the name to
`copy.deepcopy(value)`. -/
def updateList (st : Lists) (h : Heap) (listName : String) (value : Addr) :
    Except Err (Lists × Heap) := do
  if (st.lists.lookup listName).isNone then throw .valueError
  checkListElements (h.read value)
  let alloc := h.alloc (h.read value)
  return (⟨assocSet st.lists listName alloc.2, st.nextId⟩, alloc.1)

/-- `Lists.get_list`: `return self._lists[list_name]` - the stored
reference itself, not a copy. -/
def getList (st : Lists) (listName : String) : Except Err Addr :=
  match st.lists.lookup listName with
  | none => .error .keyError
  | some adr => .ok adr

/-- `Lists.get_list_element`. -/
def getListElement (st : Lists) (h : Heap) (listName : String) (index : Int) :
    Except Err PValue := do
  let adr ← getList st listName
  match pyIdx (h.read adr).length index with
  | none => throw .indexError
  | some j => return (h.read adr).getD j (.int 0)

theorem read_write_other (h : Heap) (a b : Addr) (v : List PValue) (hne : a ≠ b) :
    (h.write b v).read a = h.read a := by
  have hb : (a == b) = false := beq_eq_false_iff_ne.mpr hne
  simp [Heap.write, Heap.read, List.lookup, hb]

end RefModel

/-- C9 counterexample: `get_list` returns the stored list object itself, not
a copy.  Starting from a heap holding the caller's list `[1]` at address 0:
`create_list` stores a deep copy at address 1; `get_list` returns address 1;
the caller mutating that object (writing `[99]`) changes what the store
yields to later operations - `get_list_element` now returns 99, not 1. -/
theorem get_list_alias_counterexample :
    RefModel.createList ⟨[], 0⟩ ⟨[(0, [.int 1])], 1⟩ 0 =
      .ok ("l0", ⟨[("l0", 1)], 1⟩, ⟨[(1, [.int 1]), (0, [.int 1])], 2⟩) ∧
    RefModel.getList ⟨[("l0", 1)], 1⟩ "l0" = .ok 1 ∧
    RefModel.getListElement ⟨[("l0", 1)], 1⟩
      (RefModel.Heap.write ⟨[(1, [.int 1]), (0, [.int 1])], 2⟩ 1 [.int 99]) "l0" 0 =
      .ok (.int 99) ∧
    (PValue.int 99) ≠ .int 1 :=
  ⟨rfl, rfl, rfl, by decide⟩

theorem assocSet_lookup {α : Type} (l : List (String × α)) (k : String) (v : α) :
    (assocSet l k v).lookup k = some v := by
  induction l with
  | nil => simp [assocSet, List.lookup]
  | cons kv rest ih =>
    obtain ⟨k2, v2⟩ := kv
    rw [assocSet]
    by_cases hk : k2 = k
    · rw [if_pos hk]
      simp [List.lookup]
    · rw [if_neg hk]
      have hb : (k == k2) = false := beq_eq_false_iff_ne.mpr (fun he => hk he.symm)
      simp only [List.lookup, hb]
      exact ih

/-- C9 (amended): list values are deep-copied on insert and store -
`create_list` and `update_list` bind the name to a fresh copy, so a caller
later mutating the list it passed never changes the stored value - but
`get_list` returns the stored reference itself (an alias), not a copy. -/
theorem list_copy_semantics :
    (∀ (st : RefModel.Lists) (h : RefModel.Heap) (value : RefModel.Addr)
        (nm : String) (st' : RefModel.Lists) (h' : RefModel.Heap),
      RefModel.createList st h value = .ok (nm, st', h') →
      st'.lists.lookup nm = some h.next ∧
      h'.read h.next = h.read value ∧
      ∀ w, value ≠ h.next → (h'.write value w).read h.next = h'.read h.next) ∧
    (∀ (st : RefModel.Lists) (h : RefModel.Heap) (nm : String)
        (value : RefModel.Addr) (st' : RefModel.Lists) (h' : RefModel.Heap),
      RefModel.updateList st h nm value = .ok (st', h') →
      st'.lists.lookup nm = some h.next ∧
      h'.read h.next = h.read value ∧
      ∀ w, value ≠ h.next → (h'.write value w).read h.next = h'.read h.next) ∧
    (∀ (st : RefModel.Lists) (nm : String) (adr : RefModel.Addr),
      RefModel.getList st nm = .ok adr → st.lists.lookup nm = some adr) := by
  refine ⟨?_, ?_, ?_⟩
  · intro st h value nm st' h' hcr
    unfold RefModel.createList at hcr
    rcases hc : checkListElements (h.read value) with e | u
    · rw [hc] at hcr
      simp only [bind, Except.bind] at hcr
      cases hcr
    · rw [hc] at hcr
      simp only [bind, Except.bind, RefModel.Heap.alloc, pure, Except.pure,
        Except.ok.injEq, Prod.mk.injEq] at hcr
      obtain ⟨hnm, hst, hh⟩ := hcr
      subst hnm
      subst hst
      subst hh
      refine ⟨assocSet_lookup _ _ _, ?_, ?_⟩
      · simp [RefModel.Heap.read, List.lookup]
      · intro w hvn
        exact RefModel.read_write_other _ _ _ _ (fun he => hvn he.symm)
  · intro st h nm value st' h' hup
    unfold RefModel.updateList at hup
    by_cases hv : (st.lists.lookup nm).isNone
    · rw [if_pos (by simpa using hv)] at hup
      simp only [bind, Except.bind, throw, throwThe, MonadExceptOf.throw] at hup
      cases hup
    · rw [if_neg (by simpa using hv)] at hup
      rcases hc : checkListElements (h.read value) with e | u
      · rw [hc] at hup
        simp only [bind, Except.bind, pure, Except.pure] at hup
        cases hup
      · rw [hc] at hup
        simp only [bind, Except.bind, RefModel.Heap.alloc, pure, Except.pure,
          Except.ok.injEq, Prod.mk.injEq] at hup
        obtain ⟨hst, hh⟩ := hup
        subst hst
        subst hh
        refine ⟨assocSet_lookup _ _ _, ?_, ?_⟩
        · simp [RefModel.Heap.read, List.lookup]
        · intro w hvn
          exact RefModel.read_write_other _ _ _ _ (fun he => hvn he.symm)
  · intro st nm adr hg
    unfold RefModel.getList at hg
    rcases hl : st.lists.lookup nm with _ | a
    · rw [hl] at hg
      cases hg
    · rw [hl] at hg
      simp only [Except.ok.injEq] at hg
      rw [hg]

/-- Witness for C9's amended theorem at the counterexample's own heap: the
deep copy lives at the fresh address, and mutating the caller's address 0
does not change it. -/
theorem list_copy_semantics_witness :
    (RefModel.Lists.lists ⟨[("l0", 1)], 1⟩).lookup "l0" = some 1 ∧
    RefModel.Heap.read ⟨[(1, [.int 1]), (0, [.int 1])], 2⟩ 1 =
      RefModel.Heap.read ⟨[(0, [.int 1])], 1⟩ 0 ∧
    (∀ w, (0 : RefModel.Addr) ≠ 1 →
      (RefModel.Heap.write ⟨[(1, [.int 1]), (0, [.int 1])], 2⟩ 0 w).read 1 =
        RefModel.Heap.read ⟨[(1, [.int 1]), (0, [.int 1])], 2⟩ 1) :=
  list_copy_semantics.1 ⟨[], 0⟩ ⟨[(0, [.int 1])], 1⟩ 0 "l0" ⟨[("l0", 1)], 1⟩
    ⟨[(1, [.int 1]), (0, [.int 1])], 2⟩ rfl

/-! ## tree.py: path-addressed operations

The Python object graph holds live references (`_current_node`,
`_recursive_calls`) into `_tree`; a node's stored `path` equals its position
in the tree, so the embedding addresses nodes by path. -/

/-- The node at `path` (cursor paths are always valid). -/
def Tree.getNode? : Tree → Path → Option Tree
  | t, [] => some t
  | t, s :: rest =>
    if s = "T" then t.tr.bind (fun c => c.getNode? rest)
    else if s = "F" then t.fl.bind (fun c => c.getNode? rest)
    else none

/-- Apply `f` to the node at `path` (no-op on a path that leaves the tree,
which the cursor never does). -/
def Tree.modifyAt : Tree → Path → (Tree → Tree) → Tree
  | .node p b tr fl, [], f => f (.node p b tr fl)
  | .node p b tr fl, s :: rest, f =>
    if s = "T" then .node p b (tr.map (fun c => c.modifyAt rest f)) fl
    else if s = "F" then .node p b tr (fl.map (fun c => c.modifyAt rest f))
    else .node p b tr fl

/-- `Tree.get_instruction` (`IndexError` out of range). -/
def Tree.getInstruction (t : Tree) (pos : Nat) : Except Err Instruction :=
  match t.block.get? pos with
  | none => .error .indexError
  | some i => .ok i

/-- `Tree.append_instruction`. -/
def Tree.appendInstruction : Tree → Instruction → Tree
  | .node p b tr fl, instr => .node p (b ++ [instr]) tr fl

/-- `Tree.remaining_examples`. -/
def Tree.remainingExamples : Tree → List Path
  | .node p _ tr fl =>
    match tr, fl with
    | some t, some f => t.remainingExamples ++ f.remainingExamples
    | none, some f => [p ++ ["T"]] ++ f.remainingExamples
    | some t, none => t.remainingExamples ++ [p ++ ["F"]]
    | none, none => []

/-- `Tree.get_true(modify=True)`: create the `T` child if absent. -/
def Tree.getTrueModify : Tree → Tree
  | .node p b tr fl => .node p b (some (tr.getD (.node (p ++ ["T"]) [] none none))) fl

/-- `Tree.get_false(modify=True)`: create the `F` child if absent. -/
def Tree.getFalseModify : Tree → Tree
  | .node p b tr fl => .node p b tr (some (fl.getD (.node (p ++ ["F"]) [] none none)))

/-- In-place update of one list element (Python `l[i] = f(l[i])`; no-op out
of range, which the callers never hit). -/
def listModify {α : Type} (l : List α) (i : Nat) (f : α → α) : List α :=
  match l.get? i with
  | none => l
  | some a => l.set i (f a)

/-! ## demonstration.py -/

def ABSTRACT_TYPE_SIG : String := "w_sig"

def ABSTRACT_TYPE_PREFIX : String := "w"

def ABSTRACT_TYPE_OUTPUT : String := "w_out"

/-- `Demonstration` from `demonstration.py`.  The cursor `_current_node` and
the nodes in `_recursive_calls` are kept as paths (see `tree.py` above).
One known divergence from CPython aliasing: the in-place extension of a past
recursive call's expression list (in `add_input`) also mutates the alias of
that list stored in `_temps`; the embedding updates only the tree, which is
the copy all replay and synthesis reads use. -/
structure Demonstration where
  constants : List (String × Value)
  nextIdConstants : Nat
  inputs : List (String × String)
  nextIdInputs : Nat
  types : List (String × Term)
  nextIdType : Nat
  temps : List (String × (Expr × Option Value))
  nextIdTemps : Nat
  newBranch : Bool
  prevNextIdTemps : Nat
  recursiveCalls : List (Path × Nat)
  tree : Tree
  currentNode : Path
  blockCounter : Nat
  constraints : List Equation

/-- `Demonstration.__init__`. -/
def Demonstration.init : Demonstration :=
  ⟨[], 0, [], 0, [], 0, [], 0, true, 0, [], .node [] [] none none, [], 0, []⟩

/-- Lift a pure fallible computation into a state monad. -/
def liftE {σ α : Type} (e : Except Err α) : EStateM Err σ α := fun s =>
  match e with
  | .ok a => .ok a s
  | .error er => .error er s

/-- Association-list lookup as a fallible read (`KeyError` on a missing
key). -/
def lookupE {α : Type} (l : List (String × α)) (k : String) : Except Err α :=
  match l.lookup k with
  | none => .error .keyError
  | some v => .ok v

/-- `Demonstration.is_used`. -/
def Demonstration.isUsed (d : Demonstration) (name : String) : Bool :=
  (d.inputs.lookup name).isSome

/-- `Demonstration.is_valid_temp`. -/
def Demonstration.isValidTemp (d : Demonstration) (name : String) : Bool :=
  (d.temps.lookup name).isSome

/-- `Demonstration.is_valid_name`. -/
def Demonstration.isValidName (d : Demonstration) (name : String) : Bool :=
  d.isValidTemp name

/-- `Demonstration.get_temp` (`KeyError` when absent). -/
def Demonstration.getTemp (d : Demonstration) (name : String) : Except Err (Option Value) :=
  (lookupE d.temps name).map (·.2)

/-- `Demonstration.get_temp_names`. -/
def Demonstration.getTempNames (d : Demonstration) : List String := d.temps.map (·.1)

/-- `Demonstration.get_temp_computation` (`KeyError` when absent). -/
def Demonstration.getTempComputation (d : Demonstration) (name : String) : Except Err Expr :=
  (lookupE d.temps name).map (·.1)

/-- The constant scan of `Demonstration.add_constant`: `Function`-valued
constants compare by unique id, all others by Python value equality. -/
def findConstant : List (String × Value) → Option Value → Option String
  | [], _ => none
  | (k, v) :: rest, value =>
    match v, value with
    | .func f, some (.func g) =>
      if f.uniqueId = g.uniqueId then some k else findConstant rest value
    | _, some w => if pyValueEq v w then some k else findConstant rest value
    | _, none => findConstant rest value

/-- `Demonstration.add_constant`.  A `None` value never matches an existing
constant and fails inside `infer_value_type` before anything is stored. -/
def Demonstration.addConstant (value : Option Value) : EStateM Err Demonstration String := do
  let d ← get
  match findConstant d.constants value with
  | some k => return k
  | none =>
    let constName := "const" ++ toString d.nextIdConstants
    let constType ← liftE (inferValueTypeO value)
    match value with
    | none => throw .dynamicError  -- unreachable: infer_value_type(None) raised above
    | some v =>
      modify fun d => { d with constants := assocSet d.constants constName v,
                               nextIdConstants := d.nextIdConstants + 1 }
      let d2 ← get
      let conv ← liftE (alphaConv constType ABSTRACT_TYPE_PREFIX (d2.nextIdType : Int))
      modify fun d => { d with types := assocSet d.types constName conv.1,
                               nextIdType := conv.2.toNat }
      return constName

/-- Append `input_name` to the argument list of every recorded recursive
call (the retroactive fixup in `add_input`). -/
def extendRecursiveCalls (t : Tree) (rcalls : List (Path × Nat)) (inputName : String) : Tree :=
  rcalls.foldl (fun acc rc =>
    acc.modifyAt rc.1 (fun node =>
      match node with
      | .node p b tr fl =>
        .node p (listModify b rc.2 (fun instr => (instr.1, instr.2 ++ [inputName]))) tr fl)) t

/-- `Demonstration.add_input`. -/
def Demonstration.addInput (sIn : String) : EStateM Err Demonstration String := do
  let d ← get
  match d.inputs.lookup sIn with
  | some inputName => return inputName
  | none =>
    let inputName := "in" ++ toString d.nextIdInputs
    modify fun d => { d with inputs := assocSet d.inputs sIn inputName,
                             nextIdInputs := d.nextIdInputs + 1 }
    modify fun d => { d with tree := extendRecursiveCalls d.tree d.recursiveCalls inputName }
    modify fun d => { d with
      types := assocSet d.types inputName
        (.var (ABSTRACT_TYPE_PREFIX ++ toString d.nextIdType)),
      nextIdType := d.nextIdType + 1 }
    return inputName

/-- `Demonstration._get_expected` (an `IndexError` from `get_instruction`
becomes `None`). -/
def Demonstration.getExpected (d : Demonstration) : Option Instruction :=
  match d.tree.getNode? d.currentNode with
  | none => none
  | some node => node.block.get? d.blockCounter

/-- `Demonstration._is_expected`. -/
def Demonstration.isExpected (d : Demonstration) : Bool := d.getExpected.isSome

/-- `Demonstration._switch_next_id_temps`. -/
def Demonstration.switchNextIdTemps : EStateM Err Demonstration Unit := do
  let d ← get
  if ¬ d.newBranch ∧ ¬ d.isExpected then
    set { d with nextIdTemps := d.prevNextIdTemps, newBranch := true }

/-- `Demonstration._add_instruction` (`ValueError` when the generated
instruction does not match the expected one). -/
def Demonstration.addInstruction (instr : Instruction) : EStateM Err Demonstration Unit := do
  let d ← get
  match d.getExpected with
  | none =>
    set { d with tree := d.tree.modifyAt d.currentNode (·.appendInstruction instr) }
  | some expected =>
    if instr ≠ expected then throw .valueError

/-- `Demonstration.add_function_application`. -/
def Demonstration.addFunctionApplication (expr : Expr) (result : Option Value) :
    EStateM Err Demonstration String := do
  Demonstration.switchNextIdTemps
  let d ← get
  let tempName := "temp" ++ toString d.nextIdTemps
  Demonstration.addInstruction (some tempName, expr)
  modify fun d => { d with blockCounter := d.blockCounter + 1 }
  modify fun d => { d with temps := assocSet d.temps tempName (expr, result),
                           nextIdTemps := d.nextIdTemps + 1 }
  modify fun d =>
    if (d.types.lookup tempName).isSome then d
    else { d with
      types := assocSet d.types tempName
        (.var (ABSTRACT_TYPE_PREFIX ++ toString d.nextIdType)),
      nextIdType := d.nextIdType + 1 }
  match expr with
  | [] => throw .indexError  -- expr[0] on an empty expression
  | fname :: argKeys =>
    let d2 ← get
    let lhs ← liftE (lookupE d2.types fname)
    let rhsTypes ← liftE (argKeys.mapM (lookupE d2.types))
    let tempTy ← liftE (lookupE d2.types tempName)
    let rhs ← liftE (combineIntoApp (rhsTypes ++ [tempTy]))
    modify fun d => { d with constraints := d.constraints ++ [(lhs, rhs)] }
    return tempName

/-- `Demonstration.add_recursive_application`. -/
def Demonstration.addRecursiveApplication (expr : Expr) (result : Option Value) :
    EStateM Err Demonstration String := do
  Demonstration.switchNextIdTemps
  let d ← get
  let tempName := "temp" ++ toString d.nextIdTemps
  Demonstration.addInstruction (some tempName, expr)
  modify fun d => { d with
    recursiveCalls := d.recursiveCalls ++ [(d.currentNode, d.blockCounter)] }
  modify fun d => { d with blockCounter := d.blockCounter + 1 }
  modify fun d => { d with temps := assocSet d.temps tempName (expr, result),
                           nextIdTemps := d.nextIdTemps + 1 }
  modify fun d =>
    if (d.types.lookup tempName).isSome then d
    else { d with
      types := assocSet d.types tempName
        (.var (ABSTRACT_TYPE_PREFIX ++ toString d.nextIdType)),
      nextIdType := d.nextIdType + 1 }
  let d2 ← get
  let inTypes ← liftE ((d2.inputs.map (·.2)).mapM (lookupE d2.types))
  let lhs ← liftE (combineIntoApp (inTypes ++ [.var ABSTRACT_TYPE_OUTPUT]))
  let rhsTypes ← liftE ((expr.drop 1).mapM (lookupE d2.types))
  let tempTy ← liftE (lookupE d2.types tempName)
  let rhs ← liftE (combineIntoApp (rhsTypes ++ [tempTy]))
  modify fun d => { d with constraints := d.constraints ++ [(lhs, rhs)] }
  return tempName

/-- `Demonstration.branch` (the condition value is tested for Python
truthiness, as `if cnd_value:` does). -/
def Demonstration.branchD (cndName : String) (cndValue : Option Value) :
    EStateM Err Demonstration Unit := do
  let d ← get
  let ty ← liftE (lookupE d.types cndName)
  modify fun d => { d with constraints := d.constraints ++ [(ty, .bool)] }
  Demonstration.addInstruction (none, ["branch", cndName])
  if pyTruthy cndValue then
    modify fun d => { d with tree := d.tree.modifyAt d.currentNode Tree.getTrueModify,
                             currentNode := d.currentNode ++ ["T"] }
  else
    modify fun d => { d with tree := d.tree.modifyAt d.currentNode Tree.getFalseModify,
                             currentNode := d.currentNode ++ ["F"] }
  modify fun d => { d with blockCounter := 0 }

/-- `Demonstration.ret`. -/
def Demonstration.retD (name : String) : EStateM Err Demonstration Unit := do
  let d ← get
  let ty ← liftE (lookupE d.types name)
  modify fun d => { d with constraints := d.constraints ++ [(ty, .var ABSTRACT_TYPE_OUTPUT)] }
  Demonstration.addInstruction (none, ["ret", name])
  modify fun d => { d with newBranch := false }

/-- `Demonstration.prepare`. -/
def Demonstration.prepare : EStateM Err Demonstration Unit :=
  modify fun d => { d with currentNode := [], blockCounter := 0, temps := [],
                           prevNextIdTemps := d.nextIdTemps, nextIdTemps := 0 }

/-- `Demonstration.remaining_examples`. -/
def Demonstration.remainingExamples (d : Demonstration) : List Path :=
  d.tree.remainingExamples

/-- The signature scan of `generate_function`: Python iterates
`for lhs, function_signature in unified_constraints`, breaking on
`lhs == Var(w_sig)`; after a fruitless loop the variable holds the last
right-hand side, and `None` if the list was empty. -/
def sigScan : List Equation → Option Term
  | [] => none
  | (l, r) :: rest =>
    if l = Term.var ABSTRACT_TYPE_SIG then some r
    else
      match rest with
      | [] => some r
      | _ => sigScan rest

/-- `Demonstration.generate_function`. -/
def Demonstration.generateFunction (fuel : Nat) (uniqueId : Nat) :
    EStateM Err Demonstration Func := do
  let d ← get
  let types ← liftE ((d.inputs.map (·.2)).mapM (lookupE d.types))
  let combined ← liftE (combineIntoApp (types ++ [.var ABSTRACT_TYPE_OUTPUT]))
  let unified ←
    match unifyFuel fuel (d.constraints ++ [(.var ABSTRACT_TYPE_SIG, combined)]) with
    | none => throw .outOfFuel
    | some (.error .noSolution) => throw .noSolutionError
    | some (.error .unsupported) => throw .valueError
    | some (.ok u) => pure u
  return .custom (sigScan unified) d.tree d.constants uniqueId

/-! ## functions.py -/

/-- `Functions` from `functions.py`. -/
structure Functions where
  builtin : List (String × Func)
  custom : List (String × Func)
  nextIdCustom : Nat

def Functions.init : Functions := ⟨[], [], 0⟩

def Functions.getCustomNames (st : Functions) : List String := st.custom.map (·.1)

/-- `Functions.get_builtins` (deep copy; a value copy here). -/
def Functions.getBuiltins (st : Functions) : List (String × Func) := st.builtin

/-- `Functions.get_all_functions`: `self._builtin | self._custom` (custom
entries override). -/
def Functions.getAllFunctions (st : Functions) : List (String × Func) :=
  st.custom.foldl (fun acc kv => assocSet acc kv.1 kv.2) st.builtin

def Functions.isValidFunction (st : Functions) (functionName : String) : Bool :=
  (st.getAllFunctions.lookup functionName).isSome

/-- `Functions.get_function` (`KeyError` when absent). -/
def Functions.getFunction (st : Functions) (functionName : String) : Except Err Func :=
  lookupE st.getAllFunctions functionName

/-- `Functions.add_function`. -/
def Functions.addFunction (st : Functions) (f : Func) : String × Functions :=
  let functionName := "f" ++ toString st.nextIdCustom
  (functionName, ⟨st.builtin, assocSet st.custom functionName f, st.nextIdCustom + 1⟩)

/-- `Functions.replace_builtins`. -/
def Functions.replaceBuiltins (st : Functions) (builtins : List (String × Func)) : Functions :=
  ⟨builtins, st.custom, st.nextIdCustom⟩

/-- `Functions.delete_function` (`KeyError` when absent from the custom
table). -/
def Functions.deleteFunction (st : Functions) (functionName : String) :
    Except Err Functions :=
  if (st.custom.lookup functionName).isSome then
    .ok ⟨st.builtin, assocDelete st.custom functionName, st.nextIdCustom⟩
  else .error .keyError

/-! ## state.py -/

/-- Mode constants from `state.py`. -/
def BETWEEN : Int := -1

def INTERACTIVE : Int := 0

def DEMONSTRATION : Int := 1

/-- `State` from `state.py` (the leading underscores of the Python attribute
names are dropped). -/
structure State where
  registers : Registers
  lists : Lists
  functions : Functions
  currentDemonstration : Option Demonstration
  mode : Int
  selected : List (String × Bool)
  uniqueId : Nat

/-- `State.__init__`: built-ins are created in catalogue order, consuming
unique ids 0, 1, ... -/
def initBuiltins : List (String × Func) :=
  supportedOperations.enum.map (fun p => (p.2.1, .builtin p.2.1 p.2.2 p.1))

def State.init : State :=
  { registers := Registers.init
    lists := Lists.init
    functions := Functions.init.replaceBuiltins initBuiltins
    currentDemonstration := none
    mode := INTERACTIVE
    selected := []
    uniqueId := supportedOperations.length }

/-- The state monad of the façade: Python's in-place mutation with
exceptions; the error outcome carries the state at the raise point. -/
abbrev StM (α : Type) := EStateM Err State α

/-- Run a demonstration method on `self._current_demonstration`; a method
call on `None` is Python's `AttributeError`.  A failing method leaves its
partial mutations behind, as in Python. -/
def liftDemo {α : Type} (m : EStateM Err Demonstration α) : StM α := fun s =>
  match s.currentDemonstration with
  | none => .error .attributeError s
  | some d =>
    match m d with
    | .ok a d' => .ok a { s with currentDemonstration := some d' }
    | .error e d' => .error e { s with currentDemonstration := some d' }

/-- A read-only demonstration method. -/
def demoRead {α : Type} (f : Demonstration → α) : EStateM Err Demonstration α :=
  fun d => .ok (f d) d

/-- A fallible read of the whole state. -/
def readE {α : Type} (f : State → Except Err α) : StM α := fun s =>
  match f s with
  | .ok a => .ok a s
  | .error e => .error e s

/-- Run a register-store method and rebind `self._registers`. -/
def onRegisters {α : Type} (f : Registers → Except Err (α × Registers)) : StM α := fun s =>
  match f s.registers with
  | .error e => .error e s
  | .ok (a, r) => .ok a { s with registers := r }

/-- Run a list-store method and rebind `self._lists`. -/
def onLists {α : Type} (f : Lists → Except Err (α × Lists)) : StM α := fun s =>
  match f s.lists with
  | .error e => .error e s
  | .ok (a, l) => .ok a { s with lists := l }

/-- Run a function-store method and rebind `self._functions`. -/
def onFunctions {α : Type} (f : Functions → Except Err (α × Functions)) : StM α := fun s =>
  match f s.functions with
  | .error e => .error e s
  | .ok (a, fs) => .ok a { s with functions := fs }

/-- Run an infallible function-store method. -/
def onFunctionsPure {α : Type} (f : Functions → α × Functions) : StM α := fun s =>
  .ok (f s.functions).1 { s with functions := (f s.functions).2 }

/-- `try body except: handle` on the state monad (the handler sees the
partially mutated state, as a Python `except` block does). -/
def catchWith {α : Type} (body : StM α) (handle : Err → StM α) : StM α := fun s =>
  match body s with
  | .error e s' => handle e s'
  | r => r

-- Mode predicates (`State.is_interactive` etc.).
def State.isInteractive (s : State) : Bool := s.mode == INTERACTIVE

def State.isDemonstration (s : State) : Bool := s.mode == DEMONSTRATION

def State.isBetween (s : State) : Bool := s.mode == BETWEEN

/-- `State.current_mode`. -/
def State.currentMode (s : State) : String :=
  if s.isInteractive then "INTERACTIVE"
  else if s.isDemonstration then "DEMONSTRATION"
  else if s.isBetween then "BETWEEN"
  else "INVALID"

-- Mode checks (`ModeError` on failure).
def State.checkInteractive (s : State) : Except Err Unit :=
  if s.isInteractive then .ok () else .error .modeError

def State.checkDemonstration (s : State) : Except Err Unit :=
  if s.isDemonstration then .ok () else .error .modeError

def State.checkBetween (s : State) : Except Err Unit :=
  if s.isBetween then .ok () else .error .modeError

def State.checkInteractiveBetween (s : State) : Except Err Unit :=
  if s.isInteractive || s.isBetween then .ok () else .error .modeError

-- Mode setters.
def setInteractive : StM Unit := modify fun s => { s with mode := INTERACTIVE }

def setDemonstration : StM Unit := modify fun s => { s with mode := DEMONSTRATION }

def setBetween : StM Unit := modify fun s => { s with mode := BETWEEN }

/-- `State._get_unique_id` (mutates the counter). -/
def getUniqueId : StM Nat := fun s => .ok s.uniqueId { s with uniqueId := s.uniqueId + 1 }

/-- `State.get_builtins`. -/
def State.getBuiltins (s : State) : List (String × Func) := s.functions.getBuiltins

/-- `State.get_value`: try registers, lists, functions, then the
demonstration's temporaries, each `except KeyError`; raise `ValueError` when
nothing is found.  With no active demonstration the final attempt is
`None.get_temp(name)` - an `AttributeError`. -/
def State.getValue (s : State) (name : String) : Except Err (Option Value) :=
  match s.registers.registers.lookup name with
  | some v => .ok (some (.prim v))
  | none =>
  match s.lists.lists.lookup name with
  | some l => .ok (some (.vlist l))
  | none =>
  match s.functions.getAllFunctions.lookup name with
  | some f => .ok (some (.func f))
  | none =>
  match s.currentDemonstration with
  | none => .error .attributeError
  | some d =>
    match d.temps.lookup name with
    | some tv => .ok tv.2
    | none => .error .valueError

/-- `State.is_valid_temporary`.  (When the mode is demonstration the
demonstration object is present in every reachable state; the `none` arm
renders the short-circuit on an unreachable state.) -/
def State.isValidTemporary (s : State) (tempName : String) : Bool :=
  s.isDemonstration &&
    (match s.currentDemonstration with
     | none => false
     | some d => d.isValidTemp tempName)

/-- `State.get_computation`. -/
def State.getComputation (s : State) (name : String) : Except Err Expr :=
  if ¬ s.isValidTemporary name then .error .valueError
  else
    match s.currentDemonstration with
    | none => .error .attributeError
    | some d => d.getTempComputation name

/-- `State.get_selected` (a deep copy; a value copy here). -/
def State.getSelected (s : State) : List (String × Bool) := s.selected

/-- `State._is_valid_name`. -/
def State.isValidName (s : State) (name : String) : Bool :=
  s.registers.isValidRegister name || s.lists.isValidList name ||
  s.functions.isValidFunction name ||
  (s.isDemonstration &&
    (match s.currentDemonstration with
     | none => false
     | some d => d.isValidName name))

/-- `State._is_used` (checks demonstration mode first, `ModeError`
otherwise - note `delete_register`/`delete_list` also call this in between
mode). -/
def isUsedM (name : String) : StM Bool := fun s =>
  match s.checkDemonstration with
  | .error e => .error e s
  | .ok _ =>
    match s.currentDemonstration with
    | none => .error .attributeError s
    | some d => .ok (d.isUsed name) s

/-- `State._delete_selected`. -/
def deleteSelected (name : String) : StM Unit :=
  modify fun s => { s with selected := s.selected.filter (fun item => item.1 ≠ name) }

/-- `State.create_register`. -/
def State.createRegister (value : Value) : StM String :=
  onRegisters (fun r => r.createRegister value)

/-- `State.delete_register`. -/
def State.deleteRegister (register : String) : StM Unit := do
  let s ← get
  if s.isInteractive then do
    onRegisters (fun r => (r.deleteRegister register).map (fun r2 => ((), r2)))
    deleteSelected register
  else if s.isDemonstration || s.isBetween then do
    let used ← isUsedM register
    if used then throw .valueError
    onRegisters (fun r => (r.deleteRegister register).map (fun r2 => ((), r2)))
    deleteSelected register
  else throw .assertionError

/-- `State.update_register`. -/
def State.updateRegister (register : String) (value : Value) : StM Unit := do
  let s ← get
  if s.isInteractive || s.isBetween then
    onRegisters (fun r => (r.updateRegister register value).map (fun r2 => ((), r2)))
  else if s.isDemonstration then do
    let used ← isUsedM register
    if used then throw .valueError
    onRegisters (fun r => (r.updateRegister register value).map (fun r2 => ((), r2)))
  else throw .assertionError

/-- `State.get_register` / `get_register_names` / `is_valid_register`. -/
def State.getRegister (s : State) (registerName : String) : Except Err PValue :=
  s.registers.getRegister registerName

def State.getRegisterNames (s : State) : List String := s.registers.getNames

def State.isValidRegister (s : State) (registerName : String) : Bool :=
  s.registers.isValidRegister registerName

/-- `State.create_list` (`value = None` defaults to `[]`). -/
def State.createList (value : Option (List PValue)) : StM String :=
  onLists (fun l => l.createList (value.getD []))

/-- `State.get_list` / `get_list_names` / `get_list_element` /
`is_valid_list`. -/
def State.getList (s : State) (listName : String) : Except Err (List PValue) :=
  s.lists.getList listName

def State.getListNames (s : State) : List String := s.lists.getNames

def State.getListElement (s : State) (listName : String) (listIndex : Int) :
    Except Err PValue :=
  s.lists.getListElement listName listIndex

def State.isValidList (s : State) (listName : String) : Bool :=
  s.lists.isValidList listName

/-- `State.update_list`.  In demonstration mode the not-in-use validation
runs, but on success nothing is updated: the source never calls through to
the list store on this path. -/
def State.updateList (listName : String) (value : List PValue) : StM Unit := do
  let s ← get
  if s.isInteractive || s.isBetween then
    onLists (fun l => (l.updateList listName value).map (fun l2 => ((), l2)))
  else if s.isDemonstration then do
    let used ← isUsedM listName
    if used then throw .valueError
  else throw .assertionError

/-- `State.delete_list`. -/
def State.deleteList (listName : String) : StM Unit := do
  let s ← get
  if s.isInteractive then do
    onLists (fun l => (l.deleteList listName).map (fun l2 => ((), l2)))
    deleteSelected listName
  else if s.isDemonstration || s.isBetween then do
    let used ← isUsedM listName
    if used then throw .valueError
    onLists (fun l => (l.deleteList listName).map (fun l2 => ((), l2)))
    deleteSelected listName
  else throw .assertionError

/-- `State.append_to_list`. -/
def State.appendToList (listName : String) (value : PValue) : StM Int := do
  let s ← get
  if s.isInteractive || s.isBetween then
    onLists (fun l => l.appendToList listName value)
  else if s.isDemonstration then do
    let used ← isUsedM listName
    if used then throw .valueError
    onLists (fun l => l.appendToList listName value)
  else throw .assertionError

/-- `State.insert_list_element`. -/
def State.insertListElement (listName : String) (value : PValue) (index : Int) :
    StM Unit := do
  let s ← get
  if s.isInteractive || s.isBetween then
    onLists (fun l => (l.insertListElement listName value index).map (fun l2 => ((), l2)))
  else if s.isDemonstration then do
    let used ← isUsedM listName
    if used then throw .valueError
    onLists (fun l => (l.insertListElement listName value index).map (fun l2 => ((), l2)))
  else throw .assertionError

/-- `State.update_list_element`. -/
def State.updateListElement (listName : String) (value : PValue) (index : Int) :
    StM Unit := do
  let s ← get
  if s.isInteractive || s.isBetween then
    onLists (fun l => (l.updateListElement listName value index).map (fun l2 => ((), l2)))
  else if s.isDemonstration then do
    let used ← isUsedM listName
    if used then throw .valueError
    onLists (fun l => (l.updateListElement listName value index).map (fun l2 => ((), l2)))
  else throw .assertionError

/-- `State.delete_list_element`. -/
def State.deleteListElement (listName : String) (index : Int) : StM Unit := do
  let s ← get
  if s.isInteractive || s.isBetween then
    onLists (fun l => (l.deleteListElement listName index).map (fun l2 => ((), l2)))
  else if s.isDemonstration then do
    let used ← isUsedM listName
    if used then throw .valueError
    onLists (fun l => (l.deleteListElement listName index).map (fun l2 => ((), l2)))
  else throw .assertionError

/-- `State.get_custom_function_names`. -/
def State.getCustomFunctionNames (s : State) : List String :=
  s.functions.getCustomNames

/-- `State.create_function`. -/
def createFunction : StM Unit := do
  let s ← get
  if s.isInteractive then do
    setDemonstration
    modify fun s => { s with currentDemonstration := some Demonstration.init }
  else if s.isDemonstration || s.isBetween then throw .valueError
  else throw .assertionError

/-- `State.delete_function`. -/
def State.deleteFunction (functionName : String) : StM Unit := do
  let s ← get
  if s.isInteractive then
    onFunctions (fun fs => (fs.deleteFunction functionName).map (fun f2 => ((), f2)))
  else if s.isDemonstration || s.isBetween then throw .valueError
  else throw .assertionError

/-- `State.unselect` (`del self._selected[idx]`). -/
def State.unselect (idx : Int) : StM Unit := do
  let s ← get
  match pyIdx s.selected.length idx with
  | none => throw .indexError
  | some j => modify fun s => { s with selected := s.selected.eraseIdx j }

/-- `State.unselect_all`. -/
def unselectAll : StM Unit := modify fun s => { s with selected := [] }

/-- `State._select_interactive_between`. -/
def selectInteractiveBetween (name : String) : StM Int := do
  readE State.checkInteractiveBetween
  let s ← get
  if ¬ s.isValidName name then throw .valueError
  modify fun s => { s with selected := s.selected ++ [(name, false)] }
  let s2 ← get
  return (s2.selected.length : Int) - 1

/-- `State._select_demonstration`. -/
def selectDemonstration (name : String) (isVariable : Bool) : StM Int := do
  readE State.checkDemonstration
  let s ← get
  if ¬ s.isValidName name then throw .valueError
  let isVariable2 :=
    if (match s.currentDemonstration with
        | none => false
        | some d => d.isValidTemp name) then true else isVariable
  modify fun s => { s with selected := s.selected ++ [(name, isVariable2)] }
  let s2 ← get
  return (s2.selected.length : Int) - 1

/-- `State.select`. -/
def State.select (identifier : String) (isVariable : Bool) : StM Int := do
  let s ← get
  match s.currentMode with
  | "INTERACTIVE" | "BETWEEN" => selectInteractiveBetween identifier
  | "DEMONSTRATION" => selectDemonstration identifier isVariable
  | _ => throw .assertionError

/-- `State._get_values`. -/
def getValues (names : List String) : StM (List (Option Value)) :=
  readE (fun s => names.mapM s.getValue)

/-- `State._store_value`. -/
def storeValue (value : Option Value) : StM String := do
  let valueType ← liftE (inferValueTypeO value)
  match valueType, value with
  | .num, some v => State.createRegister v
  | .bool, some v => State.createRegister v
  | .list _, some (.vlist l) => State.createList (some l)
  | .list _, some _ => throw .dynamicError
  | _, _ => throw .assertionError

/-- `State._get_apply_result`: resolve the function (`"self"` consumes a
fresh unique id and synthesizes the partial function), apply it to the
selected values; `TypeError`/`AlgotRuntimeError` become `ValueError`,
`IndexError` on a `self` call and `NoneAsFunArg` become the unknown
sentinel. -/
def getApplyResult (fuel : Nat) (functionName : String) : StM (Option Value) := do
  let f ← catchWith
    (if functionName = "self" then do
        let uid ← getUniqueId
        liftDemo (Demonstration.generateFunction fuel uid)
      else
        readE (fun s => s.functions.getFunction functionName))
    (fun e => if e = .keyError then throw .valueError else throw e)
  let s ← get
  let argVals ← getValues (s.selected.map (·.1))
  catchWith (liftE (computeFunc fuel f argVals))
    (fun e =>
      match e with
      | .typeError => throw .valueError
      | .algotRuntimeError => throw .valueError
      | .indexError => if functionName = "self" then pure none else throw .indexError
      | .noneAsFunArg => pure none
      | e2 => throw e2)

/-- `State._add_to_function_context`. -/
def addToFunctionContext (names : List (String × Bool)) : StM (List String) :=
  names.foldlM (fun acc nv => do
    let s ← get
    if (match s.currentDemonstration with
        | none => false
        | some d => d.isValidTemp nv.1) then
      return acc ++ [nv.1]
    else if nv.2 then do
      let inputName ← liftDemo (Demonstration.addInput nv.1)
      return acc ++ [inputName]
    else do
      let value ← readE (fun s => s.getValue nv.1)
      let constName ← liftDemo (Demonstration.addConstant value)
      return acc ++ [constName]) []

/-- The snapshot/rollback wrapper of the mutating façade calls:
`state_snap = self._state_copy(); try: body; except Exception: restore;
raise`.  `_state_copy` deep-copies every attribute of the `State` tuple, so
restoring is exactly "put the old state back". -/
def withSnapshot {α : Type} (body : StM α) : StM α := fun s =>
  match body s with
  | .ok a s' => .ok a s'
  | .error e _ => .error e s

/-- `State._apply_interactive_between`. -/
def applyInteractiveBetween (fuel : Nat) (functionName : String) : StM String := do
  readE State.checkInteractiveBetween
  let result ← getApplyResult fuel functionName
  let identifier ← storeValue result
  unselectAll
  return identifier

/-- `State._apply_demonstration`. -/
def applyDemonstration (fuel : Nat) (functionName : String) (isVariable : Bool) :
    StM String := do
  readE State.checkDemonstration
  let result ← getApplyResult fuel functionName
  let s ← get
  let expr0 ← addToFunctionContext (s.selected ++ [(functionName, isVariable)])
  let expr :=
    match expr0.getLast? with
    | none => expr0
    | some last => last :: expr0.dropLast
  let identifier ← liftDemo (Demonstration.addFunctionApplication expr result)
  unselectAll
  return identifier

/-- `State.apply`. -/
def State.apply (fuel : Nat) (functionName : String) (isVariable : Bool) : StM String :=
  withSnapshot (do
    let s ← get
    match s.currentMode with
    | "INTERACTIVE" | "BETWEEN" => applyInteractiveBetween fuel functionName
    | "DEMONSTRATION" => applyDemonstration fuel functionName isVariable
    | _ => throw .assertionError)

/-- `State.recurse`. -/
def State.recurse (fuel : Nat) : StM String := do
  readE State.checkDemonstration
  withSnapshot (do
    let s ← get
    let expr0 ← addToFunctionContext s.selected
    let expr := "self" :: expr0
    let result ← getApplyResult fuel "self"
    let tempName ← liftDemo (Demonstration.addRecursiveApplication expr result)
    unselectAll
    return tempName)

/-- `State.branch`. -/
def State.branch : StM Unit := do
  readE State.checkDemonstration
  withSnapshot (do
    let s ← get
    if s.selected.length ≠ 1 then throw .valueError
    if ¬ (s.selected.headD ("", false)).2 then throw .valueError
    let condValue ← readE (fun s2 => s2.getValue (s.selected.headD ("", false)).1)
    let selectedType ← liftE (inferValueTypeO condValue)
    if selectedType ≠ .bool then throw .typeError
    let ctx ← addToFunctionContext s.selected
    liftDemo (Demonstration.branchD (ctx.headD "") condValue)
    unselectAll)

/-- The two exits of `State.ret`: remaining examples send the façade to
between mode after `prepare`; otherwise the function is materialized, the
demonstration cleared, and the mode returns to interactive. -/
def retFinish (fuel : Nat) (remaining : List Path) : StM (List Path × Option String) := do
  if remaining ≠ [] then do
    liftDemo Demonstration.prepare
    setBetween
    return (remaining, none)
  else do
    let uid ← getUniqueId
    let f ← liftDemo (Demonstration.generateFunction fuel uid)
    let functionName ← onFunctionsPure (fun fs => fs.addFunction f)
    modify fun s2 => { s2 with currentDemonstration := none }
    setInteractive
    return (remaining, some functionName)

/-- The body of `State.ret` inside the snapshot. -/
def retBody (fuel : Nat) : StM (List Path × Option String) := do
  let s ← get
  if s.selected.length ≠ 1 then throw .valueError
  let ctx ← addToFunctionContext s.selected
  liftDemo (Demonstration.retD (ctx.headD ""))
  unselectAll
  let remaining ← liftDemo (demoRead Demonstration.remainingExamples)
  retFinish fuel remaining

/-- `State.ret`. -/
def State.ret (fuel : Nat) : StM (List Path × Option String) := do
  readE State.checkDemonstration
  withSnapshot (retBody fuel)

/-- `State.cont`. -/
def State.cont : StM Unit := do
  readE State.checkBetween
  setDemonstration

/-- `State.get_temp_names` (`AttributeError` with no demonstration). -/
def State.getTempNames : StM (List String) := liftDemo (demoRead Demonstration.getTempNames)

/-! ## C1: transactional rollback -/

theorem withSnapshot_error {α : Type} {body : StM α} {s s' : State} {e : Err}
    (h : withSnapshot body s = .error e s') : s' = s := by
  unfold withSnapshot at h
  cases hb : body s with
  | ok a st =>
    rw [hb] at h
    cases h
  | error er st =>
    rw [hb] at h
    injection h with h1 h2
    exact h2.symm

theorem readE_bind_error {α β : Type} {f : State → Except Err α} {k : α → StM β}
    {s s' : State} {e : Err}
    (h : (readE f >>= k) s = .error e s')
    (hk : ∀ a e2, k a s = .error e2 s' → s' = s) : s' = s := by
  simp only [bind, EStateM.bind, readE] at h
  cases hf : f s with
  | ok a =>
    rw [hf] at h
    exact hk a e h
  | error er =>
    rw [hf] at h
    injection h with h1 h2
    exact h2.symm

/-- C1: the mutating façade calls `apply`, `recurse`, `branch` and `ret` are
atomic: whenever one raises, the caller-visible state after the call - the
register store, the list store, the function store, the active demonstration
with its branch tree, the selection list, the mode, and the unique-id
counter, i.e. every field of `State` - equals the state immediately before
the call (the entry snapshot is restored). -/
theorem facade_rollback :
    (∀ (fuel : Nat) (functionName : String) (isVariable : Bool) (s s' : State) (e : Err),
      State.apply fuel functionName isVariable s = .error e s' → s' = s) ∧
    (∀ (fuel : Nat) (s s' : State) (e : Err),
      State.recurse fuel s = .error e s' → s' = s) ∧
    (∀ (s s' : State) (e : Err),
      State.branch s = .error e s' → s' = s) ∧
    (∀ (fuel : Nat) (s s' : State) (e : Err),
      State.ret fuel s = .error e s' → s' = s) := by
  refine ⟨?_, ?_, ?_, ?_⟩
  · intro fuel fn iv s s' e h
    unfold State.apply at h
    exact withSnapshot_error h
  · intro fuel s s' e h
    unfold State.recurse at h
    exact readE_bind_error h (fun a e2 h2 => withSnapshot_error h2)
  · intro s s' e h
    unfold State.branch at h
    exact readE_bind_error h (fun a e2 h2 => withSnapshot_error h2)
  · intro fuel s s' e h
    unfold State.ret at h
    exact readE_bind_error h (fun a e2 h2 => withSnapshot_error h2)

/-- A fresh demonstration state (the façade right after `create_function`). -/
def demoState : State :=
  { State.init with mode := DEMONSTRATION, currentDemonstration := some Demonstration.init }

/-- Witness for C1 at two concrete failing calls: `apply` of an unknown
function in interactive mode, and `apply("self")` in a fresh demonstration -
the latter consumes a unique id and synthesizes a partial function before
failing, and the rollback restores the counter. -/
theorem facade_rollback_witness :
    State.apply 10 "nope" false State.init = .error .valueError State.init ∧
    State.apply 10 "self" false demoState = .error .valueError demoState ∧
    demoState = demoState :=
  ⟨rfl, rfl, facade_rollback.1 10 "self" false demoState demoState .valueError rfl⟩

/-! ## C6: update_list in demonstration mode -/

/-- C6: in demonstration mode, `update_list` on a list that is not among the
demonstration's inputs passes the not-in-use validation and returns without
error, but performs no update: the resulting state (in particular the stored
value of the list) is the unchanged input state, because the source never
calls through to the list store on this path. -/
theorem update_list_demonstration_noop (s : State) (d : Demonstration)
    (listName : String) (value : List PValue)
    (hmode : s.mode = DEMONSTRATION) (hdemo : s.currentDemonstration = some d)
    (hused : d.isUsed listName = false)
    (_hvalid : s.lists.isValidList listName = true) :
    State.updateList listName value s = .ok () s := by
  have hint : s.isInteractive = false := by
    simp [State.isInteractive, hmode, INTERACTIVE, DEMONSTRATION]
  have hbet : s.isBetween = false := by
    simp [State.isBetween, hmode, BETWEEN, DEMONSTRATION]
  have hdem : s.isDemonstration = true := by
    simp [State.isDemonstration, hmode, DEMONSTRATION]
  have hchk : s.checkDemonstration = .ok () := by
    simp [State.checkDemonstration, hdem]
  unfold State.updateList
  simp only [bind, EStateM.bind, get, getThe, MonadStateOf.get, EStateM.get, hint, hbet,
    Bool.or_self, Bool.false_eq_true, if_false, hdem, if_true, isUsedM, hchk, hdemo,
    hused, ite_false, ite_true, pure, EStateM.pure]

/-- The façade of `demoState` with one list `l0 = [1]` present. -/
def c6State : State :=
  { State.init with
    mode := DEMONSTRATION
    currentDemonstration := some Demonstration.init
    lists := ⟨[("l0", [.int 1])], 1⟩ }

/-- Witness for C6 at a concrete state: updating `l0` in demonstration mode
succeeds and changes nothing. -/
theorem update_list_demonstration_noop_witness :
    State.updateList "l0" [.int 5] c6State = .ok () c6State :=
  update_list_demonstration_noop c6State Demonstration.init "l0" [.int 5] rfl rfl rfl rfl

/-! ## C7: get_value on an unknown name -/

/-- C7: `get_value` of a name bound in no registry raises the documented
`ValueError` (UnknownName) only when a demonstration object is present
(demonstration and between modes).  In interactive mode the demonstration is
`None` and the final lookup `self._current_demonstration.get_temp(name)`
raises `AttributeError` instead - contradicting the method's docstring. -/
theorem get_value_unknown_name :
    State.init.getValue "nope" = .error .attributeError ∧
    Err.attributeError ≠ Err.valueError ∧
    (∀ (s : State) (d : Demonstration) (nm : String),
      s.currentDemonstration = some d →
      s.registers.registers.lookup nm = none →
      s.lists.lists.lookup nm = none →
      s.functions.getAllFunctions.lookup nm = none →
      d.temps.lookup nm = none →
      s.getValue nm = .error .valueError) := by
  refine ⟨rfl, by decide, ?_⟩
  intro s d nm hd hr hl hf ht
  unfold State.getValue
  rw [hr, hl, hf, hd]
  simp only [ht]

/-- Witness for C7's demonstration-mode part at a concrete state. -/
theorem get_value_unknown_name_witness :
    demoState.getValue "nope" = .error .valueError :=
  get_value_unknown_name.2.2 demoState Demonstration.init "nope" rfl rfl rfl rfl rfl

/-! ## C10: the mode / demonstration-presence invariant -/

/-- The state a façade call leaves behind, successful or failed. -/
def resultState {α : Type} : EStateM.Result Err State α → State
  | .ok _ s => s
  | .error _ s => s

def postState {α : Type} (m : StM α) (s : State) : State := resultState (m s)

/-- A computation that never writes the mode and never changes whether a
demonstration is present, on success and on failure alike. -/
def PreservesMD {α : Type} (m : StM α) : Prop :=
  ∀ s, (postState m s).mode = s.mode ∧
    (postState m s).currentDemonstration.isSome = s.currentDemonstration.isSome

theorem pmd_pure {α : Type} (a : α) : PreservesMD (pure a : StM α) := fun _ => ⟨rfl, rfl⟩

theorem pmd_throw {α : Type} (e : Err) : PreservesMD (throw e : StM α) := fun _ => ⟨rfl, rfl⟩

theorem pmd_get : PreservesMD (get : StM State) := fun _ => ⟨rfl, rfl⟩

theorem pmd_getUniqueId : PreservesMD getUniqueId := fun _ => ⟨rfl, rfl⟩

theorem pmd_readE {α : Type} (f : State → Except Err α) : PreservesMD (readE f) := by
  intro s
  unfold postState readE
  cases hf : f s <;> simp [resultState]

theorem pmd_liftE {α : Type} (e : Except Err α) : PreservesMD (liftE e : StM α) := by
  intro s
  unfold postState liftE
  cases e <;> simp [resultState]

theorem pmd_bind {α β : Type} {m : StM α} {k : α → StM β}
    (hm : PreservesMD m) (hk : ∀ a, PreservesMD (k a)) : PreservesMD (m >>= k) := by
  intro s
  have h1 := hm s
  unfold postState at h1 ⊢
  simp only [bind, EStateM.bind]
  cases hr : m s with
  | ok a s1 =>
    rw [hr] at h1
    simp only [resultState] at h1
    have h2 := hk a s1
    unfold postState at h2
    exact ⟨h2.1.trans h1.1, h2.2.trans h1.2⟩
  | error e s1 =>
    rw [hr] at h1
    simpa [resultState] using h1

theorem pmd_ite {α : Type} {c : Prop} [Decidable c] {m1 m2 : StM α}
    (h1 : PreservesMD m1) (h2 : PreservesMD m2) : PreservesMD (if c then m1 else m2) := by
  by_cases hc : c
  · rw [if_pos hc]; exact h1
  · rw [if_neg hc]; exact h2

theorem pmd_liftDemo {α : Type} (m : EStateM Err Demonstration α) :
    PreservesMD (liftDemo m) := by
  intro s
  unfold postState liftDemo
  cases hd : s.currentDemonstration with
  | none => simp [resultState, hd]
  | some d => cases hm : m d <;> simp [resultState, hd, hm]

theorem pmd_onRegisters {α : Type} (f : Registers → Except Err (α × Registers)) :
    PreservesMD (onRegisters f) := by
  intro s
  unfold postState onRegisters
  cases hf : f s.registers with
  | error e => simp [resultState]
  | ok p => cases p with | mk a r => simp [resultState]

theorem pmd_onLists {α : Type} (f : Lists → Except Err (α × Lists)) :
    PreservesMD (onLists f) := by
  intro s
  unfold postState onLists
  cases hf : f s.lists with
  | error e => simp [resultState]
  | ok p => cases p with | mk a l => simp [resultState]

theorem pmd_onFunctions {α : Type} (f : Functions → Except Err (α × Functions)) :
    PreservesMD (onFunctions f) := by
  intro s
  unfold postState onFunctions
  cases hf : f s.functions with
  | error e => simp [resultState]
  | ok p => cases p with | mk a fs => simp [resultState]

theorem pmd_onFunctionsPure {α : Type} (f : Functions → α × Functions) :
    PreservesMD (onFunctionsPure f) := fun _ => ⟨rfl, rfl⟩

theorem pmd_modify (f : State → State)
    (hf : ∀ s, (f s).mode = s.mode ∧
      (f s).currentDemonstration.isSome = s.currentDemonstration.isSome) :
    PreservesMD (modify f) := by
  intro s
  unfold postState
  simp only [modify, modifyGet, MonadStateOf.modifyGet, EStateM.modifyGet, resultState]
  exact hf s

theorem pmd_catchWith {α : Type} {body : StM α} {handle : Err → StM α}
    (hb : PreservesMD body) (hh : ∀ e, PreservesMD (handle e)) :
    PreservesMD (catchWith body handle) := by
  intro s
  have h1 := hb s
  unfold postState at h1 ⊢
  unfold catchWith
  cases hr : body s with
  | ok a s1 =>
    rw [hr] at h1
    simpa [resultState] using h1
  | error e s1 =>
    rw [hr] at h1
    simp only [resultState] at h1
    have h2 := hh e s1
    unfold postState at h2
    exact ⟨h2.1.trans h1.1, h2.2.trans h1.2⟩

theorem pmd_withSnapshot {α : Type} {body : StM α} (hb : PreservesMD body) :
    PreservesMD (withSnapshot body) := by
  intro s
  have h1 := hb s
  unfold postState at h1 ⊢
  unfold withSnapshot
  cases hr : body s with
  | ok a s1 =>
    rw [hr] at h1
    simpa [resultState] using h1
  | error e s1 => simp [resultState]

theorem pmd_foldlM {α β : Type} (step : β → α → StM β)
    (hstep : ∀ b a, PreservesMD (step b a)) :
    ∀ (l : List α) (b : β), PreservesMD (l.foldlM step b) := by
  intro l
  induction l with
  | nil => intro b; exact pmd_pure b
  | cons x rest ih =>
    intro b
    show PreservesMD (step b x >>= fun b2 => rest.foldlM step b2)
    exact pmd_bind (hstep b x) (fun b2 => ih b2)

theorem pmd_isUsedM (nm : String) : PreservesMD (isUsedM nm) := by
  intro s
  unfold postState isUsedM
  cases hc : s.checkDemonstration with
  | error e => simp [resultState]
  | ok u =>
    cases hd : s.currentDemonstration <;> simp [resultState, hd]

theorem pmd_deleteSelected (nm : String) : PreservesMD (deleteSelected nm) :=
  pmd_modify _ (fun _ => ⟨rfl, rfl⟩)

theorem pmd_unselectAll : PreservesMD unselectAll :=
  pmd_modify _ (fun _ => ⟨rfl, rfl⟩)

theorem pmd_createRegister (v : Value) : PreservesMD (State.createRegister v) :=
  pmd_onRegisters _

theorem pmd_deleteRegister (nm : String) : PreservesMD (State.deleteRegister nm) := by
  unfold State.deleteRegister
  refine pmd_bind pmd_get (fun s0 => ?_)
  refine pmd_ite (pmd_bind (pmd_onRegisters _) (fun _ => pmd_deleteSelected nm)) ?_
  refine pmd_ite ?_ (pmd_throw _)
  refine pmd_bind (pmd_isUsedM nm) (fun used => ?_)
  simp only []
  exact pmd_ite
    (pmd_bind (pmd_throw _) (fun _ => pmd_bind (pmd_onRegisters _) (fun _ => pmd_deleteSelected nm)))
    (pmd_bind (pmd_pure _) (fun _ => pmd_bind (pmd_onRegisters _) (fun _ => pmd_deleteSelected nm)))

/-- The shape the do-elaborator gives a mid-block `if c then throw e`
followed by further statements (a join point). -/
theorem pmd_jp {α : Type} {c : Prop} [Decidable c] (e : Err) (k : PUnit → StM α)
    (hk : ∀ y, PreservesMD (k y)) :
    PreservesMD (if c then throw e >>= k else pure PUnit.unit >>= k) :=
  pmd_ite (pmd_bind (pmd_throw e) hk) (pmd_bind (pmd_pure _) hk)

theorem pmd_updateRegister (nm : String) (v : Value) :
    PreservesMD (State.updateRegister nm v) := by
  unfold State.updateRegister
  refine pmd_bind pmd_get (fun s0 => ?_)
  refine pmd_ite (pmd_onRegisters _) ?_
  refine pmd_ite ?_ (pmd_throw _)
  refine pmd_bind (pmd_isUsedM nm) (fun used => ?_)
  simp only []
  exact pmd_jp _ _ (fun _ => pmd_onRegisters _)

theorem pmd_createList (v : Option (List PValue)) : PreservesMD (State.createList v) :=
  pmd_onLists _

theorem pmd_updateList (nm : String) (v : List PValue) :
    PreservesMD (State.updateList nm v) := by
  unfold State.updateList
  refine pmd_bind pmd_get (fun s0 => ?_)
  refine pmd_ite (pmd_onLists _) ?_
  refine pmd_ite ?_ (pmd_throw _)
  exact pmd_bind (pmd_isUsedM nm) (fun used => pmd_ite (pmd_throw _) (pmd_pure _))

theorem pmd_deleteList (nm : String) : PreservesMD (State.deleteList nm) := by
  unfold State.deleteList
  refine pmd_bind pmd_get (fun s0 => ?_)
  refine pmd_ite (pmd_bind (pmd_onLists _) (fun _ => pmd_deleteSelected nm)) ?_
  refine pmd_ite ?_ (pmd_throw _)
  refine pmd_bind (pmd_isUsedM nm) (fun used => ?_)
  simp only []
  exact pmd_jp _ _ (fun _ => pmd_bind (pmd_onLists _) (fun _ => pmd_deleteSelected nm))

theorem pmd_appendToList (nm : String) (v : PValue) :
    PreservesMD (State.appendToList nm v) := by
  unfold State.appendToList
  refine pmd_bind pmd_get (fun s0 => ?_)
  refine pmd_ite (pmd_onLists _) ?_
  refine pmd_ite ?_ (pmd_throw _)
  refine pmd_bind (pmd_isUsedM nm) (fun used => ?_)
  simp only []
  exact pmd_jp _ _ (fun _ => pmd_onLists _)

theorem pmd_insertListElement (nm : String) (v : PValue) (i : Int) :
    PreservesMD (State.insertListElement nm v i) := by
  unfold State.insertListElement
  refine pmd_bind pmd_get (fun s0 => ?_)
  refine pmd_ite (pmd_onLists _) ?_
  refine pmd_ite ?_ (pmd_throw _)
  refine pmd_bind (pmd_isUsedM nm) (fun used => ?_)
  simp only []
  exact pmd_jp _ _ (fun _ => pmd_onLists _)

theorem pmd_updateListElement (nm : String) (v : PValue) (i : Int) :
    PreservesMD (State.updateListElement nm v i) := by
  unfold State.updateListElement
  refine pmd_bind pmd_get (fun s0 => ?_)
  refine pmd_ite (pmd_onLists _) ?_
  refine pmd_ite ?_ (pmd_throw _)
  refine pmd_bind (pmd_isUsedM nm) (fun used => ?_)
  simp only []
  exact pmd_jp _ _ (fun _ => pmd_onLists _)

theorem pmd_deleteListElement (nm : String) (i : Int) :
    PreservesMD (State.deleteListElement nm i) := by
  unfold State.deleteListElement
  refine pmd_bind pmd_get (fun s0 => ?_)
  refine pmd_ite (pmd_onLists _) ?_
  refine pmd_ite ?_ (pmd_throw _)
  refine pmd_bind (pmd_isUsedM nm) (fun used => ?_)
  simp only []
  exact pmd_jp _ _ (fun _ => pmd_onLists _)

theorem pmd_deleteFunction (nm : String) : PreservesMD (State.deleteFunction nm) := by
  unfold State.deleteFunction
  exact pmd_bind pmd_get
    (fun s0 => pmd_ite (pmd_onFunctions _) (pmd_ite (pmd_throw _) (pmd_throw _)))

theorem pmd_unselect (idx : Int) : PreservesMD (State.unselect idx) := by
  unfold State.unselect
  refine pmd_bind pmd_get (fun s0 => ?_)
  cases pyIdx s0.selected.length idx with
  | none => exact pmd_throw _
  | some j => exact pmd_modify _ (fun _ => ⟨rfl, rfl⟩)

theorem pmd_selectInteractiveBetween (nm : String) :
    PreservesMD (selectInteractiveBetween nm) := by
  unfold selectInteractiveBetween
  refine pmd_bind (pmd_readE _) (fun u => ?_)
  refine pmd_bind pmd_get (fun s0 => ?_)
  simp only []
  exact pmd_jp _ _ (fun _ =>
    pmd_bind (pmd_modify _ (fun _ => ⟨rfl, rfl⟩)) (fun _ =>
      pmd_bind pmd_get (fun s2 => pmd_pure _)))

theorem pmd_selectDemonstration (nm : String) (iv : Bool) :
    PreservesMD (selectDemonstration nm iv) := by
  unfold selectDemonstration
  refine pmd_bind (pmd_readE _) (fun u => ?_)
  refine pmd_bind pmd_get (fun s0 => ?_)
  simp only []
  exact pmd_jp _ _ (fun _ =>
    pmd_bind (pmd_modify _ (fun _ => ⟨rfl, rfl⟩)) (fun _ =>
      pmd_bind pmd_get (fun s2 => pmd_pure _)))

theorem pmd_select (nm : String) (iv : Bool) : PreservesMD (State.select nm iv) := by
  unfold State.select
  refine pmd_bind pmd_get (fun s0 => ?_)
  split
  all_goals first
    | exact pmd_selectInteractiveBetween nm
    | exact pmd_selectDemonstration nm iv
    | exact pmd_throw _

theorem pmd_getValues (names : List String) : PreservesMD (getValues names) :=
  pmd_readE _

theorem pmd_storeValue (v : Option Value) : PreservesMD (storeValue v) := by
  unfold storeValue
  refine pmd_bind (pmd_liftE _) (fun vt => ?_)
  split
  all_goals first
    | exact pmd_createRegister _
    | exact pmd_createList _
    | exact pmd_throw _

theorem pmd_getApplyResult (fuel : Nat) (nm : String) :
    PreservesMD (getApplyResult fuel nm) := by
  unfold getApplyResult
  refine pmd_bind (pmd_catchWith ?_ ?_) (fun f => ?_)
  · exact pmd_ite (pmd_bind pmd_getUniqueId (fun uid => pmd_liftDemo _)) (pmd_readE _)
  · intro e
    exact pmd_ite (pmd_throw _) (pmd_throw _)
  refine pmd_bind pmd_get (fun s0 => ?_)
  refine pmd_bind (pmd_getValues _) (fun argVals => ?_)
  refine pmd_catchWith (pmd_liftE _) ?_
  intro e
  split
  all_goals first
    | exact pmd_ite (pmd_pure _) (pmd_throw _)
    | exact pmd_pure _
    | exact pmd_throw _

theorem pmd_addToFunctionContext (names : List (String × Bool)) :
    PreservesMD (addToFunctionContext names) := by
  unfold addToFunctionContext
  refine pmd_foldlM _ ?_ names []
  intro acc nv
  refine pmd_bind pmd_get (fun s0 => ?_)
  refine pmd_ite (pmd_pure _) ?_
  refine pmd_ite (pmd_bind (pmd_liftDemo _) (fun inputName => pmd_pure _)) ?_
  exact pmd_bind (pmd_readE _) (fun value =>
    pmd_bind (pmd_liftDemo _) (fun constName => pmd_pure _))

theorem pmd_applyInteractiveBetween (fuel : Nat) (nm : String) :
    PreservesMD (applyInteractiveBetween fuel nm) := by
  unfold applyInteractiveBetween
  exact pmd_bind (pmd_readE _) (fun u =>
    pmd_bind (pmd_getApplyResult fuel nm) (fun result =>
      pmd_bind (pmd_storeValue result) (fun identifier =>
        pmd_bind pmd_unselectAll (fun _ => pmd_pure _))))

theorem pmd_applyDemonstration (fuel : Nat) (nm : String) (iv : Bool) :
    PreservesMD (applyDemonstration fuel nm iv) := by
  unfold applyDemonstration
  refine pmd_bind (pmd_readE _) (fun u => ?_)
  refine pmd_bind (pmd_getApplyResult fuel nm) (fun result => ?_)
  refine pmd_bind pmd_get (fun s0 => ?_)
  refine pmd_bind (pmd_addToFunctionContext _) (fun expr0 => ?_)
  simp only []
  exact pmd_bind (pmd_liftDemo _) (fun identifier =>
    pmd_bind pmd_unselectAll (fun _ => pmd_pure _))

theorem pmd_apply (fuel : Nat) (nm : String) (iv : Bool) :
    PreservesMD (State.apply fuel nm iv) := by
  unfold State.apply
  refine pmd_withSnapshot ?_
  refine pmd_bind pmd_get (fun s0 => ?_)
  split
  all_goals first
    | exact pmd_applyInteractiveBetween fuel nm
    | exact pmd_applyDemonstration fuel nm iv
    | exact pmd_throw _

theorem pmd_recurse (fuel : Nat) : PreservesMD (State.recurse fuel) := by
  unfold State.recurse
  refine pmd_bind (pmd_readE _) (fun u => ?_)
  refine pmd_withSnapshot ?_
  refine pmd_bind pmd_get (fun s0 => ?_)
  refine pmd_bind (pmd_addToFunctionContext _) (fun expr0 => ?_)
  simp only []
  exact pmd_bind (pmd_getApplyResult fuel _) (fun result =>
    pmd_bind (pmd_liftDemo _) (fun tempName =>
      pmd_bind pmd_unselectAll (fun _ => pmd_pure _)))

theorem pmd_branch : PreservesMD State.branch := by
  unfold State.branch
  refine pmd_bind (pmd_readE _) (fun u => ?_)
  refine pmd_withSnapshot ?_
  refine pmd_bind pmd_get (fun s0 => ?_)
  simp only []
  refine pmd_jp _ _ (fun y1 => ?_)
  refine pmd_jp _ _ (fun y2 => ?_)
  refine pmd_bind (pmd_readE _) (fun condValue => ?_)
  refine pmd_bind (pmd_liftE _) (fun selectedType => ?_)
  refine pmd_jp _ _ (fun y3 => ?_)
  exact pmd_bind (pmd_addToFunctionContext _) (fun ctx =>
    pmd_bind (pmd_liftDemo _) (fun _ => pmd_unselectAll))

theorem pmd_getTempNames : PreservesMD State.getTempNames :=
  pmd_liftDemo _

/-! Step lemmas for decomposing successful and failing runs. -/

theorem bind_ok {α β : Type} {m : StM α} {k : α → StM β} {s s' : State} {b : β}
    (h : (m >>= k) s = .ok b s') :
    ∃ a s1, m s = .ok a s1 ∧ k a s1 = .ok b s' := by
  simp only [bind, EStateM.bind] at h
  cases hm : m s with
  | ok a s1 => rw [hm] at h; exact ⟨a, s1, rfl, h⟩
  | error e s1 => rw [hm] at h; cases h

theorem get_ok {s s' a : State} (h : (get : StM State) s = .ok a s') :
    a = s ∧ s' = s := by
  simp only [get, getThe, MonadStateOf.get, EStateM.get] at h
  injection h with h1 h2
  exact ⟨h1.symm, h2.symm⟩

theorem get_error_false {s s' : State} {e : Err}
    (h : (get : StM State) s = .error e s') : False := by
  simp only [get, getThe, MonadStateOf.get, EStateM.get] at h
  cases h

theorem modify_ok {f : State → State} {s s' : State} {a : Unit}
    (h : (modify f : StM Unit) s = .ok a s') : s' = f s := by
  simp only [modify, modifyGet, MonadStateOf.modifyGet, EStateM.modifyGet] at h
  injection h with h1 h2
  exact h2.symm

theorem modify_error_false {f : State → State} {s s' : State} {e : Err}
    (h : (modify f : StM Unit) s = .error e s') : False := by
  simp only [modify, modifyGet, MonadStateOf.modifyGet, EStateM.modifyGet] at h
  cases h

theorem pure_ok {α : Type} {a b : α} {s s' : State} (h : (pure a : StM α) s = .ok b s') :
    b = a ∧ s' = s := by
  simp only [pure, EStateM.pure] at h
  injection h with h1 h2
  exact ⟨h1.symm, h2.symm⟩

theorem throw_ok_false {α : Type} {e : Err} {a : α} {s s' : State}
    (h : (throw e : StM α) s = .ok a s') : False := by
  simp only [throw, throwThe, MonadExceptOf.throw, EStateM.throw] at h
  cases h

theorem throw_error {α : Type} {e e2 : Err} {s s' : State}
    (h : (throw e : StM α) s = .error e2 s') : s' = s := by
  simp only [throw, throwThe, MonadExceptOf.throw, EStateM.throw] at h
  injection h with h1 h2
  exact h2.symm

theorem readE_ok {α : Type} {f : State → Except Err α} {s s' : State} {a : α}
    (h : readE f s = .ok a s') : s' = s ∧ f s = .ok a := by
  unfold readE at h
  cases hf : f s with
  | ok b =>
    rw [hf] at h
    injection h with h1 h2
    rw [h1]
    exact ⟨h2.symm, rfl⟩
  | error e => rw [hf] at h; cases h

theorem withSnapshot_ok {α : Type} {body : StM α} {s s' : State} {a : α}
    (h : withSnapshot body s = .ok a s') : body s = .ok a s' := by
  unfold withSnapshot at h
  cases hb : body s with
  | ok a2 s2 =>
    rw [hb] at h
    exact h
  | error e s2 => rw [hb] at h; cases h

theorem liftDemo_ok_state {α : Type} {m : EStateM Err Demonstration α} {s s' : State} {a : α}
    (h : liftDemo m s = .ok a s') :
    s'.currentDemonstration.isSome = true ∧ s'.mode = s.mode := by
  unfold liftDemo at h
  split at h
  · cases h
  · split at h
    · injection h with h1 h2
      rw [← h2]
      exact ⟨rfl, rfl⟩
    · cases h

theorem setDemonstration_ok {s s' : State} {a : Unit} (h : setDemonstration s = .ok a s') :
    s' = { s with mode := DEMONSTRATION } := by
  unfold setDemonstration at h
  exact modify_ok h

theorem setBetween_ok {s s' : State} {a : Unit} (h : setBetween s = .ok a s') :
    s' = { s with mode := BETWEEN } := by
  unfold setBetween at h
  exact modify_ok h

theorem setInteractive_ok {s s' : State} {a : Unit} (h : setInteractive s = .ok a s') :
    s' = { s with mode := INTERACTIVE } := by
  unfold setInteractive at h
  exact modify_ok h

/-! The invariant itself and its preservation by the mode-changing calls. -/

/-- The C10 invariant on a façade state: the demonstration is absent in
interactive mode and present in demonstration and between modes. -/
def ModeInv (s : State) : Prop :=
  (s.mode = INTERACTIVE ∧ s.currentDemonstration.isSome = false) ∨
  ((s.mode = DEMONSTRATION ∨ s.mode = BETWEEN) ∧ s.currentDemonstration.isSome = true)

theorem modeInv_of_pmd {α : Type} {m : StM α} (hm : PreservesMD m) {s : State}
    (hs : ModeInv s) : ModeInv (postState m s) := by
  have h := hm s
  unfold ModeInv at hs ⊢
  rw [h.1, h.2]
  exact hs

theorem bind_error {α β : Type} {m : StM α} {k : α → StM β} {s s' : State} {e : Err}
    (h : (m >>= k) s = .error e s') :
    m s = .error e s' ∨ ∃ a s1, m s = .ok a s1 ∧ k a s1 = .error e s' := by
  simp only [bind, EStateM.bind] at h
  split at h
  · rename_i a s1 hm
    exact Or.inr ⟨a, s1, hm, h⟩
  · rename_i e2 s2 hm
    injection h with h1 h2
    subst h1
    subst h2
    exact Or.inl hm

theorem modeInv_createFunction {s : State} (hs : ModeInv s) :
    ModeInv (postState createFunction s) := by
  unfold postState
  cases hr : createFunction s with
  | ok a s' =>
    simp only [resultState]
    unfold createFunction at hr
    obtain ⟨s0, s1, h1, h2⟩ := bind_ok hr
    obtain ⟨ha, hb⟩ := get_ok h1
    subst ha
    subst hb
    split at h2
    · obtain ⟨u, s2, h3, h4⟩ := bind_ok h2
      rw [setDemonstration_ok h3] at h4
      rw [modify_ok h4]
      exact Or.inr ⟨Or.inl rfl, rfl⟩
    · split at h2
      · exact (throw_ok_false h2).elim
      · exact (throw_ok_false h2).elim
  | error e s' =>
    simp only [resultState]
    unfold createFunction at hr
    rcases bind_error hr with h1 | ⟨s0, s1, h1, h2⟩
    · exact (get_error_false h1).elim
    · obtain ⟨ha, hb⟩ := get_ok h1
      subst ha
      subst hb
      split at h2
      · rcases bind_error h2 with h3 | ⟨u, s2, h3, h4⟩
        · unfold setDemonstration at h3
          exact (modify_error_false h3).elim
        · exact (modify_error_false h4).elim
      · split at h2
        · rw [throw_error h2]; exact hs
        · rw [throw_error h2]; exact hs

theorem modeInv_cont {s : State} (hs : ModeInv s) : ModeInv (postState State.cont s) := by
  unfold postState
  cases hr : State.cont s with
  | ok a s' =>
    simp only [resultState]
    unfold State.cont at hr
    obtain ⟨u, s1, h1, h2⟩ := bind_ok hr
    obtain ⟨hs1, hck⟩ := readE_ok h1
    rw [hs1] at h2
    have hbet : s.isBetween = true := by
      by_contra hb
      unfold State.checkBetween at hck
      rw [if_neg hb] at hck
      cases hck
    have hmode : s.mode = BETWEEN := by
      simpa [State.isBetween] using hbet
    have hd : s.currentDemonstration.isSome = true := by
      rcases hs with ⟨hm1, _⟩ | ⟨_, hd2⟩
      · rw [hmode] at hm1
        exact absurd hm1 (by decide)
      · exact hd2
    rw [setDemonstration_ok h2]
    exact Or.inr ⟨Or.inl rfl, hd⟩
  | error e s' =>
    simp only [resultState]
    have hss : s' = s := by
      unfold State.cont at hr
      refine readE_bind_error hr (fun a e2 h2 => ?_)
      unfold setDemonstration at h2
      exact (modify_error_false h2).elim
    rw [hss]
    exact hs

theorem retFinish_ok_modeInv {fuel : Nat} {rem : List Path} {s s' : State}
    {a : List Path × Option String} (h : retFinish fuel rem s = .ok a s') :
    ModeInv s' := by
  unfold retFinish at h
  split at h
  · obtain ⟨u1, s1, h1, h2⟩ := bind_ok h
    obtain ⟨hsome, _⟩ := liftDemo_ok_state h1
    obtain ⟨u2, s2, h3, h4⟩ := bind_ok h2
    obtain ⟨_, hs2⟩ := pure_ok h4
    subst hs2
    rw [setBetween_ok h3]
    exact Or.inr ⟨Or.inr rfl, hsome⟩
  · obtain ⟨uid, s1, _, h2⟩ := bind_ok h
    obtain ⟨f, s2, _, h3⟩ := bind_ok h2
    obtain ⟨fn, s3, _, h4⟩ := bind_ok h3
    obtain ⟨u4, s4, h5, h6⟩ := bind_ok h4
    obtain ⟨u5, s5, h7, h8⟩ := bind_ok h6
    obtain ⟨_, hs5⟩ := pure_ok h8
    subst hs5
    rw [setInteractive_ok h7, modify_ok h5]
    exact Or.inl ⟨rfl, rfl⟩

theorem retBody_ok_modeInv {fuel : Nat} {s s' : State} {a : List Path × Option String}
    (h : retBody fuel s = .ok a s') : ModeInv s' := by
  unfold retBody at h
  obtain ⟨s0, s1, h1, h2⟩ := bind_ok h
  obtain ⟨ha, hb⟩ := get_ok h1
  subst ha
  subst hb
  simp only [] at h2
  split at h2
  · obtain ⟨y, s2, hth, _⟩ := bind_ok h2
    exact (throw_ok_false hth).elim
  · obtain ⟨y, s2, hp, h3⟩ := bind_ok h2
    obtain ⟨_, hs2⟩ := pure_ok hp
    subst hs2
    obtain ⟨ctx, s3, _, h4⟩ := bind_ok h3
    obtain ⟨u2, s4, _, h5⟩ := bind_ok h4
    obtain ⟨u3, s5, _, h6⟩ := bind_ok h5
    obtain ⟨remaining, s6, _, h7⟩ := bind_ok h6
    exact retFinish_ok_modeInv h7

theorem modeInv_ret (fuel : Nat) {s : State} (hs : ModeInv s) :
    ModeInv (postState (State.ret fuel) s) := by
  unfold postState
  cases hr : State.ret fuel s with
  | ok a s' =>
    simp only [resultState]
    unfold State.ret at hr
    obtain ⟨u, s1, h1, h2⟩ := bind_ok hr
    obtain ⟨hs1, _⟩ := readE_ok h1
    subst hs1
    exact retBody_ok_modeInv (withSnapshot_ok h2)
  | error e s' =>
    simp only [resultState]
    have hss : s' = s := by
      unfold State.ret at hr
      exact readE_bind_error hr (fun a2 e2 h2 => withSnapshot_error h2)
    rw [hss]
    exact hs

/-- The façade states reachable from the initial state through the public
mutating operations; each constructor takes the state an operation leaves
behind, on success and on failure alike (`postState` keeps the state of the
error outcome, i.e. the state after the snapshot-restore path). -/
inductive Reachable : State → Prop where
  | init : Reachable State.init
  | createRegister (s : State) (v : Value) : Reachable s →
      Reachable (postState (State.createRegister v) s)
  | updateRegister (s : State) (nm : String) (v : Value) : Reachable s →
      Reachable (postState (State.updateRegister nm v) s)
  | deleteRegister (s : State) (nm : String) : Reachable s →
      Reachable (postState (State.deleteRegister nm) s)
  | createList (s : State) (v : Option (List PValue)) : Reachable s →
      Reachable (postState (State.createList v) s)
  | updateList (s : State) (nm : String) (v : List PValue) : Reachable s →
      Reachable (postState (State.updateList nm v) s)
  | deleteList (s : State) (nm : String) : Reachable s →
      Reachable (postState (State.deleteList nm) s)
  | appendToList (s : State) (nm : String) (v : PValue) : Reachable s →
      Reachable (postState (State.appendToList nm v) s)
  | insertListElement (s : State) (nm : String) (v : PValue) (i : Int) : Reachable s →
      Reachable (postState (State.insertListElement nm v i) s)
  | updateListElement (s : State) (nm : String) (v : PValue) (i : Int) : Reachable s →
      Reachable (postState (State.updateListElement nm v i) s)
  | deleteListElement (s : State) (nm : String) (i : Int) : Reachable s →
      Reachable (postState (State.deleteListElement nm i) s)
  | createFunction (s : State) : Reachable s →
      Reachable (postState createFunction s)
  | deleteFunction (s : State) (nm : String) : Reachable s →
      Reachable (postState (State.deleteFunction nm) s)
  | select (s : State) (nm : String) (iv : Bool) : Reachable s →
      Reachable (postState (State.select nm iv) s)
  | unselect (s : State) (i : Int) : Reachable s →
      Reachable (postState (State.unselect i) s)
  | unselectAll (s : State) : Reachable s →
      Reachable (postState unselectAll s)
  | apply (s : State) (fuel : Nat) (nm : String) (iv : Bool) : Reachable s →
      Reachable (postState (State.apply fuel nm iv) s)
  | recurse (s : State) (fuel : Nat) : Reachable s →
      Reachable (postState (State.recurse fuel) s)
  | branch (s : State) : Reachable s →
      Reachable (postState State.branch s)
  | ret (s : State) (fuel : Nat) : Reachable s →
      Reachable (postState (State.ret fuel) s)
  | cont (s : State) : Reachable s →
      Reachable (postState State.cont s)
  | getTempNames (s : State) : Reachable s →
      Reachable (postState State.getTempNames s)

/-- C10: in every façade state reachable from the initial state through the
public operations - including the states left behind by failed calls, i.e.
the snapshot-restore path - the active demonstration is present exactly when
the mode is demonstration or between, and absent exactly when the mode is
interactive. -/
theorem mode_demonstration_invariant (s : State) (h : Reachable s) :
    (s.currentDemonstration.isSome = true ↔
      (s.mode = DEMONSTRATION ∨ s.mode = BETWEEN)) ∧
    (s.currentDemonstration = none ↔ s.mode = INTERACTIVE) := by
  have hinv : ModeInv s := by
    induction h with
    | init => exact Or.inl ⟨rfl, rfl⟩
    | createRegister s v _ ih => exact modeInv_of_pmd (pmd_createRegister v) ih
    | updateRegister s nm v _ ih => exact modeInv_of_pmd (pmd_updateRegister nm v) ih
    | deleteRegister s nm _ ih => exact modeInv_of_pmd (pmd_deleteRegister nm) ih
    | createList s v _ ih => exact modeInv_of_pmd (pmd_createList v) ih
    | updateList s nm v _ ih => exact modeInv_of_pmd (pmd_updateList nm v) ih
    | deleteList s nm _ ih => exact modeInv_of_pmd (pmd_deleteList nm) ih
    | appendToList s nm v _ ih => exact modeInv_of_pmd (pmd_appendToList nm v) ih
    | insertListElement s nm v i _ ih =>
      exact modeInv_of_pmd (pmd_insertListElement nm v i) ih
    | updateListElement s nm v i _ ih =>
      exact modeInv_of_pmd (pmd_updateListElement nm v i) ih
    | deleteListElement s nm i _ ih => exact modeInv_of_pmd (pmd_deleteListElement nm i) ih
    | createFunction s _ ih => exact modeInv_createFunction ih
    | deleteFunction s nm _ ih => exact modeInv_of_pmd (pmd_deleteFunction nm) ih
    | select s nm iv _ ih => exact modeInv_of_pmd (pmd_select nm iv) ih
    | unselect s i _ ih => exact modeInv_of_pmd (pmd_unselect i) ih
    | unselectAll s _ ih => exact modeInv_of_pmd pmd_unselectAll ih
    | apply s fuel nm iv _ ih => exact modeInv_of_pmd (pmd_apply fuel nm iv) ih
    | recurse s fuel _ ih => exact modeInv_of_pmd (pmd_recurse fuel) ih
    | branch s _ ih => exact modeInv_of_pmd pmd_branch ih
    | ret s fuel _ ih => exact modeInv_ret fuel ih
    | cont s _ ih => exact modeInv_cont ih
    | getTempNames s _ ih => exact modeInv_of_pmd pmd_getTempNames ih
  rcases hinv with ⟨h1, h2⟩ | ⟨h1, h2⟩
  · have hnone : s.currentDemonstration = none := by
      cases hd : s.currentDemonstration with
      | none => rfl
      | some d => rw [hd] at h2; cases h2
    constructor
    · constructor
      · intro hT
        rw [h2] at hT
        cases hT
      · intro hT
        rcases hT with hT | hT <;> rw [h1] at hT <;> exact absurd hT (by decide)
    · exact ⟨fun _ => h1, fun _ => hnone⟩
  · constructor
    · exact ⟨fun _ => h1, fun _ => h2⟩
    · constructor
      · intro hnone
        rw [hnone] at h2
        cases h2
      · intro hI
        rcases h1 with hm | hm <;> rw [hI] at hm <;> exact absurd hm (by decide)

/-- Witness for C10 at a concrete reachable state: the state right after
`create_function` from the initial state (demonstration mode, demonstration
present). -/
theorem mode_demonstration_invariant_witness :
    ((postState createFunction State.init).currentDemonstration.isSome = true ↔
      ((postState createFunction State.init).mode = DEMONSTRATION ∨
        (postState createFunction State.init).mode = BETWEEN)) ∧
    ((postState createFunction State.init).currentDemonstration = none ↔
      (postState createFunction State.init).mode = INTERACTIVE) :=
  mode_demonstration_invariant _ (Reachable.createFunction State.init Reachable.init)

end Algot
